import Mathlib

/-!
ConvImage: icon conversion and array compression.

A shallow embedding of `src/icon.c` (`icon_convert`, `icon_palette`) and
`src/compress.c` (`compress_array`, `compress_zx7`, `compress_zx0`).

* The output file is a `String` that every `fprintf` appends to.
* Calls that leave the two source files (image loading, libimagequant, the
  zx7 and zx0 libraries, `malloc`, `fopen`) are fields of a record of
  collaborators, so every statement quantifies over what they answer.
* A read outside a buffer has no defined result in C; the embedding returns
  `none` for a run that performs one.
* `int` values are integers. The serializers run only after both dimensions
  passed the `> 255` tests; with dimensions from 0 to 255 the products and sums
  `y * width`, `x + offset` and `x + 1` stay inside the range of `int`. Overflow
  for a loader that reports a negative dimension is not modelled.
-/

namespace ConvImage

/-! ## printf conversions -/

/-- Digits of `v` in base 16, upper case, most significant first (`%X`). -/
def hex_upper (v : Nat) : List Char :=
  (Nat.toDigits 16 v).map Char.toUpper

/-- The conversion `%02X` of an unsigned value: at least two digits, padded
on the left with zeros, never truncated. -/
def fmt_02X (v : Nat) : String :=
  String.mk (List.replicate (2 - (hex_upper v).length) '0' ++ hex_upper v)

/-- The conversion `%02X` handed an `int`: the value is read as a 32-bit
unsigned number. -/
def fmt_02X_int (v : Int) : String :=
  fmt_02X (v % 2 ^ 32).toNat

/-- The conversion `%d`. -/
def fmt_d (v : Int) : String :=
  toString v

/-! ## Data model (`image.h`, `icon.h`, `log.h`, libimagequant) -/

/-- The fields of `struct image` that `icon_convert` uses. -/
structure image where
  path : String
  width : Int
  height : Int
  size : Int
  data : List UInt8
  deriving DecidableEq, Repr

/-- Values of the format selector: the two enumerators that the `switch` of
`icon_convert` names, and any other number. -/
inductive icon_format_t where
  | ICON_FORMAT_ASM
  | ICON_FORMAT_ICE
  | unrecognised (v : Int)
  deriving DecidableEq, Repr

/-- The descriptor `struct icon`. A pointer that may be `NULL` is an `Option`;
a `String` stands for the characters of a C string before its terminator. -/
structure icon where
  image_file : Option String
  output_file : String
  description : Option String
  format : icon_format_t
  deriving DecidableEq, Repr

/-- A colour handed to libimagequant. -/
structure liq_color where
  r : UInt8
  g : UInt8
  b : UInt8
  a : UInt8
  deriving DecidableEq, Repr

/-- Lines sent to the log, by the macro that sends them. -/
inductive log_entry where
  | LOG_ERROR (msg : String)
  | LOG_WARNING (msg : String)
  | LOG_PRINT (msg : String)
  deriving DecidableEq, Repr

/-- What the code outside `icon.c` answers during one call of `icon_convert`.
`image_load` maps the path to the return value and the loaded image;
a `Bool` is `true` when the call returns a non-null pointer;
`remapped` is the content of `data` after `liq_write_remapped_image`. -/
structure collaborators where
  image_load : String → Int × image
  liq_attr_create : Bool
  liq_image_create_rgba : Bool
  malloc : Bool
  liq_quantize_image : Bool
  remapped : List UInt8
  fopen : String → Bool
  strerror : String

/-- What one call of `icon_convert` leaves behind: the return value, the text
of the output file (`none` when no file was opened), whether `fopen` was
called, the log, and the colours passed to `liq_image_add_fixed_color`, in
call order. -/
structure conversion where
  ret : Int
  file : Option String
  fopen_called : Bool
  log : List log_entry
  fixed_colors : List liq_color
  deriving DecidableEq, Repr

/-! ## `icon.c` -/

/-- The table `icon_palette` (768 bytes). -/
def icon_palette : List UInt8 :=
  [
    0x00,0x00,0x00,  0x00,0x20,0x08,  0x00,0x41,0x10,  0x00,0x61,0x18,
    0x00,0x82,0x21,  0x00,0xA2,0x29,  0x00,0xC3,0x31,  0x00,0xE3,0x39,
    0x08,0x00,0x42,  0x08,0x20,0x4A,  0x08,0x41,0x52,  0x08,0x61,0x5A,
    0x08,0x82,0x63,  0x08,0xA2,0x6B,  0x08,0xC3,0x73,  0x08,0xE3,0x7B,
    0x10,0x00,0x84,  0x10,0x20,0x8C,  0x10,0x41,0x94,  0x10,0x61,0x9C,
    0x10,0x82,0xA5,  0x10,0xA2,0xAD,  0x10,0xC3,0xB5,  0x10,0xE3,0xBD,
    0x18,0x00,0xC6,  0x18,0x20,0xCE,  0x18,0x41,0xD6,  0x18,0x61,0xDE,
    0x18,0x82,0xE7,  0x18,0xA2,0xEF,  0x18,0xC3,0xF7,  0x18,0xE3,0xFF,
    0x21,0x04,0x00,  0x21,0x24,0x08,  0x21,0x45,0x10,  0x21,0x65,0x18,
    0x21,0x86,0x21,  0x21,0xA6,0x29,  0x21,0xC7,0x31,  0x21,0xE7,0x39,
    0x29,0x04,0x42,  0x29,0x24,0x4A,  0x29,0x45,0x52,  0x29,0x65,0x5A,
    0x29,0x86,0x63,  0x29,0xA6,0x6B,  0x29,0xC7,0x73,  0x29,0xE7,0x7B,
    0x31,0x04,0x84,  0x31,0x24,0x8C,  0x31,0x45,0x94,  0x31,0x65,0x9C,
    0x31,0x86,0xA5,  0x31,0xA6,0xAD,  0x31,0xC7,0xB5,  0x31,0xE7,0xBD,
    0x39,0x04,0xC6,  0x39,0x24,0xCE,  0x39,0x45,0xD6,  0x39,0x65,0xDE,
    0x39,0x86,0xE7,  0x39,0xA6,0xEF,  0x39,0xC7,0xF7,  0x39,0xE7,0xFF,
    0x42,0x08,0x00,  0x42,0x28,0x08,  0x42,0x49,0x10,  0x42,0x69,0x18,
    0x42,0x8A,0x21,  0x42,0xAA,0x29,  0x42,0xCB,0x31,  0x42,0xEB,0x39,
    0x4A,0x08,0x42,  0x4A,0x28,0x4A,  0x4A,0x49,0x52,  0x4A,0x69,0x5A,
    0x4A,0x8A,0x63,  0x4A,0xAA,0x6B,  0x4A,0xCB,0x73,  0x4A,0xEB,0x7B,
    0x52,0x08,0x84,  0x52,0x28,0x8C,  0x52,0x49,0x94,  0x52,0x69,0x9C,
    0x52,0x8A,0xA5,  0x52,0xAA,0xAD,  0x52,0xCB,0xB5,  0x52,0xEB,0xBD,
    0x5A,0x08,0xC6,  0x5A,0x28,0xCE,  0x5A,0x49,0xD6,  0x5A,0x69,0xDE,
    0x5A,0x8A,0xE7,  0x5A,0xAA,0xEF,  0x5A,0xCB,0xF7,  0x5A,0xEB,0xFF,
    0x63,0x0C,0x00,  0x63,0x2C,0x08,  0x63,0x4D,0x10,  0x63,0x6D,0x18,
    0x63,0x8E,0x21,  0x63,0xAE,0x29,  0x63,0xCF,0x31,  0x63,0xEF,0x39,
    0x6B,0x0C,0x42,  0x6B,0x2C,0x4A,  0x6B,0x4D,0x52,  0x6B,0x6D,0x5A,
    0x6B,0x8E,0x63,  0x6B,0xAE,0x6B,  0x6B,0xCF,0x73,  0x6B,0xEF,0x7B,
    0x73,0x0C,0x84,  0x73,0x2C,0x8C,  0x73,0x4D,0x94,  0x73,0x6D,0x9C,
    0x73,0x8E,0xA5,  0x73,0xAE,0xAD,  0x73,0xCF,0xB5,  0x73,0xEF,0xBD,
    0x7B,0x0C,0xC6,  0x7B,0x2C,0xCE,  0x7B,0x4D,0xD6,  0x7B,0x6D,0xDE,
    0x7B,0x8E,0xE7,  0x7B,0xAE,0xEF,  0x7B,0xCF,0xF7,  0x7B,0xEF,0xFF,
    0x84,0x10,0x00,  0x84,0x30,0x08,  0x84,0x51,0x10,  0x84,0x71,0x18,
    0x84,0x92,0x21,  0x84,0xB2,0x29,  0x84,0xD3,0x31,  0x84,0xF3,0x39,
    0x8C,0x10,0x42,  0x8C,0x30,0x4A,  0x8C,0x51,0x52,  0x8C,0x71,0x5A,
    0x8C,0x92,0x63,  0x8C,0xB2,0x6B,  0x8C,0xD3,0x73,  0x8C,0xF3,0x7B,
    0x94,0x10,0x84,  0x94,0x30,0x8C,  0x94,0x51,0x94,  0x94,0x71,0x9C,
    0x94,0x92,0xA5,  0x94,0xB2,0xAD,  0x94,0xD3,0xB5,  0x94,0xF3,0xBD,
    0x9C,0x10,0xC6,  0x9C,0x30,0xCE,  0x9C,0x51,0xD6,  0x9C,0x71,0xDE,
    0x9C,0x92,0xE7,  0x9C,0xB2,0xEF,  0x9C,0xD3,0xF7,  0x9C,0xF3,0xFF,
    0xA5,0x14,0x00,  0xA5,0x34,0x08,  0xA5,0x55,0x10,  0xA5,0x75,0x18,
    0xA5,0x96,0x21,  0xA5,0xB6,0x29,  0xA5,0xD7,0x31,  0xA5,0xF7,0x39,
    0xAD,0x14,0x42,  0xAD,0x34,0x4A,  0xAD,0x55,0x52,  0xAD,0x75,0x5A,
    0xAD,0x96,0x63,  0xAD,0xB6,0x6B,  0xAD,0xD7,0x73,  0xAD,0xF7,0x7B,
    0xB5,0x14,0x84,  0xB5,0x34,0x8C,  0xB5,0x55,0x94,  0xB5,0x75,0x9C,
    0xB5,0x96,0xA5,  0xB5,0xB6,0xAD,  0xB5,0xD7,0xB5,  0xB5,0xF7,0xBD,
    0xBD,0x14,0xC6,  0xBD,0x34,0xCE,  0xBD,0x55,0xD6,  0xBD,0x75,0xDE,
    0xBD,0x96,0xE7,  0xBD,0xB6,0xEF,  0xBD,0xD7,0xF7,  0xBD,0xF7,0xFF,
    0xC6,0x18,0x00,  0xC6,0x38,0x08,  0xC6,0x59,0x10,  0xC6,0x79,0x18,
    0xC6,0x9A,0x21,  0xC6,0xBA,0x29,  0xC6,0xDB,0x31,  0xC6,0xFB,0x39,
    0xCE,0x18,0x42,  0xCE,0x38,0x4A,  0xCE,0x59,0x52,  0xCE,0x79,0x5A,
    0xCE,0x9A,0x63,  0xCE,0xBA,0x6B,  0xCE,0xDB,0x73,  0xCE,0xFB,0x7B,
    0xD6,0x18,0x84,  0xD6,0x38,0x8C,  0xD6,0x59,0x94,  0xD6,0x79,0x9C,
    0xD6,0x9A,0xA5,  0xD6,0xBA,0xAD,  0xD6,0xDB,0xB5,  0xD6,0xFB,0xBD,
    0xDE,0x18,0xC6,  0xDE,0x38,0xCE,  0xDE,0x59,0xD6,  0xDE,0x79,0xDE,
    0xDE,0x9A,0xE7,  0xDE,0xBA,0xEF,  0xDE,0xDB,0xF7,  0xDE,0xFB,0xFF,
    0xE7,0x1C,0x00,  0xE7,0x3C,0x08,  0xE7,0x5D,0x10,  0xE7,0x7D,0x18,
    0xE7,0x9E,0x21,  0xE7,0xBE,0x29,  0xE7,0xDF,0x31,  0xE7,0xFF,0x39,
    0xEF,0x1C,0x42,  0xEF,0x3C,0x4A,  0xEF,0x5D,0x52,  0xEF,0x7D,0x5A,
    0xEF,0x9E,0x63,  0xEF,0xBE,0x6B,  0xEF,0xDF,0x73,  0xEF,0xFF,0x7B,
    0xF7,0x1C,0x84,  0xF7,0x3C,0x8C,  0xF7,0x5D,0x94,  0xF7,0x7D,0x9C,
    0xF7,0x9E,0xA5,  0xF7,0xBE,0xAD,  0xF7,0xDF,0xB5,  0xF7,0xFF,0xBD,
    0xFF,0x1C,0xC6,  0xFF,0x3C,0xCE,  0xFF,0x5D,0xD6,  0xFF,0x7D,0xDE,
    0xFF,0x9E,0xE7,  0xFF,0xBE,0xEF,  0xFF,0xDF,0xF7,  0xFF,0xFF,0xFF
  ]

/-- The loop `for (int i = 0; i < n; i++)` over a state that an iteration may
fail to produce. -/
def for_int {σ : Type} (n : Int) (body : Int → σ → Option σ) (s : σ) : Option σ :=
  (List.range n.toNat).foldlM (fun s i => body (Int.ofNat i) s) s

/-- The read `data[i]` of a byte buffer. -/
def read_u8 (data : List UInt8) (i : Int) : Option UInt8 :=
  if 0 ≤ i then data.get? i.toNat else none

/-- The loop of `icon_convert` that registers the palette: for `i` from 0 to
255 it reads `icon_palette[3 * i + 0 .. 2]` and passes the colour, with alpha
255, to `liq_image_add_fixed_color`. Returns the colours passed, in order. -/
def add_fixed_colors : Option (List liq_color) :=
  for_int 256 (fun i colors => do
    let o := i * 3
    let r ← read_u8 icon_palette (o + 0)
    let g ← read_u8 icon_palette (o + 1)
    let b ← read_u8 icon_palette (o + 2)
    some (colors ++ [{ r := r, g := g, b := b, a := 255 }])) []

/-- The branch `case ICON_FORMAT_ASM` (also the `default` branch) of
`icon_convert`. The argument `icon_data` is `some (image, data)` when
`has_icon` is true and `none` otherwise; `fd` is the text written so far. -/
def write_asm (icon_data : Option (image × List UInt8)) (description : Option String)
    (fd : String) : Option String := do
  let fd := fd ++ "\tsection .icon\n\n"
  let fd := fd ++ "\tjp\t___prgm_init\n"
  let fd ← match icon_data with
    | some (image, data) =>
      let fd := fd ++ "\tdb\t$01\n"
      let fd := fd ++ "\tpublic ___icon\n"
      let fd := fd ++ "___icon:\n"
      let fd := fd ++ ("\tdb\t$" ++ fmt_02X_int image.width ++ ", $" ++ fmt_02X_int image.height)
      for_int image.height (fun y fd =>
        let offset := y * image.width
        let fd := fd ++ "\n\tdb\t"
        for_int image.width (fun x fd => do
          let b ← read_u8 data (x + offset)
          if x + 1 = image.width then
            some (fd ++ ("$" ++ fmt_02X b.toNat))
          else
            some (fd ++ ("$" ++ fmt_02X b.toNat ++ ", "))) fd) fd
    | none => some (fd ++ "\tdb\t$02\n")
  let fd := fd ++ "\n"
  let fd :=
    if description ≠ none ∧ description ≠ some "" then
      let fd := fd ++ "\tpublic ___description\n"
      let fd := fd ++ "___description:\n"
      fd ++ ("\tdb\t\"" ++ description.getD "" ++ "\", 0\n")
    else
      let fd := fd ++ "\tpublic ___description\n"
      let fd := fd ++ "___description:\n"
      fd ++ "\tdb\t0\n"
  some (fd ++ "___prgm_init:\n")

/-- The branch `case ICON_FORMAT_ICE` of `icon_convert`. -/
def write_ice (icon_data : Option (image × List UInt8)) (fd : String) : Option String :=
  match icon_data with
  | some (image, data) => do
    let fd := fd ++ ("\"01" ++ fmt_02X_int image.width ++ fmt_02X_int image.height)
    let fd ← for_int image.height (fun y fd =>
      let offset := y * image.width
      for_int image.width (fun x fd => do
        let b ← read_u8 data (x + offset)
        some (fd ++ fmt_02X b.toNat)) fd) fd
    some (fd ++ "\"\n")
  | none => some fd

/-- The label `fail:` of `icon_convert` reached by a `goto`: the function
returns the current value of `ret`; the output file is not open. -/
def goto_fail (ret : Int) (fopen_called : Bool) (log : List log_entry)
    (colors : List liq_color) : conversion :=
  { ret := ret, file := none, fopen_called := fopen_called, log := log, fixed_colors := colors }

/-- Lines 133 to 225 of `icon_convert`: open the output file, write the
artifact in the selected format, close, set `ret = 0`. The arguments are the
values of the local variables when line 133 is reached. -/
def icon_output (ic : icon) (env : collaborators) (icon_data : Option (image × List UInt8))
    (ret : Int) (log : List log_entry) (colors : List liq_color) : Option conversion :=
  if env.fopen ic.output_file = false then
    some (goto_fail ret true
      (log ++ [log_entry.LOG_ERROR ("Could not open output file: " ++ env.strerror ++ "\n")])
      colors)
  else do
    let fd := ""
    let fd ← match ic.format with
      | icon_format_t.ICON_FORMAT_ICE => write_ice icon_data fd
      | _ => write_asm icon_data ic.description fd
    let ret := 0
    some { ret := ret, file := some fd, fopen_called := true, log := log, fixed_colors := colors }

/-- Lines 84 to 87 of `icon_convert`: the warning logged for an image that is
not 16 by 16. -/
def size_advisory (image : image) : List log_entry :=
  if image.width ≠ 16 ∨ image.height ≠ 16 then
    [log_entry.LOG_WARNING ("Icon \x27" ++ image.path ++ "\x27 is not 16x16 pixels.\n")]
  else []

/-- The function `icon_convert`. -/
def icon_convert (ic : icon) (env : collaborators) : Option conversion :=
  let ret : Int := -1
  match ic.image_file with
  | some image_file =>
    let (ret, image) := env.image_load image_file
    if ret ≠ 0 then
      some (goto_fail ret false [log_entry.LOG_ERROR "Failed loading icon image file.\n"] [])
    else if image.width > 255 then
      some (goto_fail ret false
        [log_entry.LOG_ERROR ("Icon \x27" ++ image.path ++ "\x27 width is " ++ fmt_d image.width
          ++ ". Maximum supported is 255.\n")] [])
    else if image.height > 255 then
      some (goto_fail ret false
        [log_entry.LOG_ERROR ("Icon \x27" ++ image.path ++ "\x27 height is " ++ fmt_d image.height
          ++ ". Maximum supported is 255.\n")] [])
    else
      let log := size_advisory image
      if env.liq_attr_create = false then
        some (goto_fail ret false
          (log ++ [log_entry.LOG_ERROR "Failed creating icon image attributes.\n"]) [])
      else if env.liq_image_create_rgba = false then
        some (goto_fail ret false
          (log ++ [log_entry.LOG_ERROR "Failed creating icon image data.\n"]) [])
      else do
        let colors ← add_fixed_colors
        if env.malloc = false then
          some (goto_fail ret false
            (log ++ [log_entry.LOG_ERROR "Memory error in \x27icon_convert\x27.\n"]) colors)
        else if env.liq_quantize_image = false then
          some (goto_fail ret false
            (log ++ [log_entry.LOG_ERROR "Could not quantize icon image.\n"]) colors)
        else
          icon_output ic env (some (image, env.remapped)) ret log colors
  | none => icon_output ic env none ret [] []

/-! ## `compress.c` -/

/-- Values of the strategy selector: the four enumerators that the `switch`
of `compress_array` names, and any other number. -/
inductive compress_t where
  | COMPRESS_INVALID
  | COMPRESS_NONE
  | COMPRESS_ZX7
  | COMPRESS_ZX0
  | unrecognised (v : Int)
  deriving DecidableEq, Repr

/-- The plan that `zx7_optimize` returns; its content is private to zx7. -/
structure zx7_Optimal where
  handle : Nat
  deriving DecidableEq, Repr

/-- The plan that `zx0_optimize` returns; its content is private to zx0. -/
structure zx0_BLOCK where
  handle : Nat
  deriving DecidableEq, Repr

/-- What the zx7 and zx0 libraries answer. An `Option` is `none` when the
call returns `NULL`. The compress phases return the block they allocated and
the value stored in `new_size`. The optimize phase of zx0 also reports how
many times it called the progress callback. The compress phase of zx0 receives
whatever its optimize phase returned. -/
structure zx_backends where
  zx7_optimize : List UInt8 → Nat → Option zx7_Optimal
  zx7_compress : zx7_Optimal → List UInt8 → Nat → Option (List UInt8 × Nat)
  zx0_optimize : List UInt8 → Int → Option zx0_BLOCK × Nat
  zx0_compress : Option zx0_BLOCK → List UInt8 → Int → Option (List UInt8 × Int)

/-- What one call of `compress_array` leaves behind: the return value, the
buffer behind `data`, the value behind `size` (each `none` for a null
pointer), and the log. -/
structure compression where
  ret : Int
  data : Option (List UInt8)
  size : Option Nat
  log : List log_entry
  deriving DecidableEq, Repr

/-- Conversion of a `size_t` to `int`. -/
def int_of_size_t (n : Nat) : Int :=
  ((n : Int) + 2 ^ 31) % 2 ^ 32 - 2 ^ 31

/-- Conversion of an `int` to `size_t`. -/
def size_t_of_int (v : Int) : Nat :=
  (v % 2 ^ 64).toNat

/-- The call `memcpy(dst, src, n)`: the first `n` bytes of `dst` become the
first `n` bytes of `src`, the rest of `dst` is kept. Not defined when either
block is shorter than `n`. -/
def memcpy (dst src : List UInt8) (n : Nat) : Option (List UInt8) :=
  if n ≤ dst.length ∧ n ≤ src.length then some (src.take n ++ dst.drop n) else none

/-- The function `compress_zx7`. -/
def compress_zx7 (lib : zx_backends) (data : Option (List UInt8)) (size : Option Nat) :
    Option compression :=
  match size, data with
  | some sz, some buf =>
    match lib.zx7_optimize buf sz with
    | none =>
      some { ret := -1, data := data, size := size,
             log := [log_entry.LOG_ERROR "Could not optimize zx7.\n"] }
    | some opt =>
      match lib.zx7_compress opt buf sz with
      | none =>
        some { ret := -1, data := data, size := size,
               log := [log_entry.LOG_ERROR "Could not compress zx7.\n"] }
      | some (compressed_data, new_size) => do
        let buf ← memcpy buf compressed_data new_size
        some { ret := 0, data := some buf, size := some new_size, log := [] }
  | _, _ => some { ret := -1, data := data, size := size, log := [] }

/-- The function `compress_zx0_progress`, called `n` times. -/
def compress_zx0_progress (n : Nat) : List log_entry :=
  List.replicate n (log_entry.LOG_PRINT ".")

/-- The function `compress_zx0`. -/
def compress_zx0 (lib : zx_backends) (data : Option (List UInt8)) (size : Option Nat) :
    Option compression :=
  match size, data with
  | some sz, some buf =>
    let log := [log_entry.LOG_PRINT "[info] Compressing ["]
    let (optimal, calls) := lib.zx0_optimize buf (int_of_size_t sz)
    let log := log ++ compress_zx0_progress calls
    let compressed := lib.zx0_compress optimal buf (int_of_size_t sz)
    let log := log ++ [log_entry.LOG_PRINT "]\n"]
    match compressed with
    | none =>
      some { ret := -1, data := data, size := size,
             log := log ++ [log_entry.LOG_ERROR "Could not compress zx0.\n"] }
    | some (compressed_data, new_size) => do
      let buf ← memcpy buf compressed_data (size_t_of_int new_size)
      some { ret := 0, data := some buf, size := some (size_t_of_int new_size), log := log }
  | _, _ => some { ret := -1, data := data, size := size, log := [] }

/-- The function `compress_array`. -/
def compress_array (lib : zx_backends) (data : Option (List UInt8)) (size : Option Nat)
    (mode : compress_t) : Option compression :=
  match mode with
  | compress_t.COMPRESS_NONE => some { ret := 0, data := data, size := size, log := [] }
  | compress_t.COMPRESS_ZX7 => compress_zx7 lib data size
  | compress_t.COMPRESS_ZX0 => compress_zx0 lib data size
  | _ => some { ret := -1, data := data, size := size, log := [] }

/-! ## The artifact formats as the specification words them -/

/-- The upper-case hexadecimal digit of a value below 16. -/
def hex_digit (d : Nat) : Char :=
  "0123456789ABCDEF".data.getD d '?'

/-- A value below 256 as exactly two upper-case hexadecimal digits. -/
def hex2 (v : Nat) : String :=
  String.mk [hex_digit (v / 16), hex_digit (v % 16)]

/-- Row `y` of a row-major buffer with rows of `w` bytes: the bytes
`data[y * w]` to `data[y * w + w - 1]`. -/
def spec_row (w : Nat) (data : List UInt8) (y : Nat) : List UInt8 :=
  (data.drop (y * w)).take w

/-- The bytes of one row, each as `$` and two hexadecimal digits, joined by
a comma and a blank. -/
def spec_asm_row (row : List UInt8) : String :=
  ", ".intercalate (row.map fun b => "$" ++ hex2 b.toNat)

/-- The icon block of AssemblyText with an image attached: tag line, label,
the line of width and height, then one line per row. The last line is left
open. -/
def spec_asm_icon_block (w h : Nat) (data : List UInt8) : String :=
  "\tdb\t$01\n\tpublic ___icon\n___icon:\n" ++ ("\tdb\t$" ++ hex2 w ++ ", $" ++ hex2 h) ++
    String.join ((List.range h).map fun y => "\n\tdb\t" ++ spec_asm_row (spec_row w data y))

/-- The description block of AssemblyText: the text as a literal closed by a
zero byte when it is present and not empty, a single zero byte otherwise. -/
def spec_description_block (description : Option String) : String :=
  "\tpublic ___description\n___description:\n" ++
    match description with
    | some d => if d = "" then "\tdb\t0\n" else "\tdb\t\"" ++ d ++ "\", 0\n"
    | none => "\tdb\t0\n"

/-- The whole AssemblyText artifact with an image attached. -/
def spec_asm_text (w h : Nat) (data : List UInt8) (description : Option String) : String :=
  "\tsection .icon\n\n\tjp\t___prgm_init\n" ++ spec_asm_icon_block w h data ++ "\n" ++
    spec_description_block description ++ "___prgm_init:\n"

/-- The whole AssemblyText artifact with no image attached. -/
def spec_asm_text_no_image (description : Option String) : String :=
  "\tsection .icon\n\n\tjp\t___prgm_init\n" ++ "\tdb\t$02\n" ++ "\n" ++
    spec_description_block description ++ "___prgm_init:\n"

/-- The HexLiteralText artifact with an image attached. -/
def spec_ice_text (w h : Nat) (data : List UInt8) : String :=
  "\"" ++ "01" ++ hex2 w ++ hex2 h ++ String.join (data.map fun b => hex2 b.toNat) ++ "\"" ++ "\n"

/-- Entry `i` of the palette as a colour: the bytes `icon_palette[3 * i]`,
`icon_palette[3 * i + 1]` and `icon_palette[3 * i + 2]`, with alpha 255. -/
def palette_color (i : Nat) : liq_color :=
  { r := icon_palette.getD (3 * i) 0, g := icon_palette.getD (3 * i + 1) 0,
    b := icon_palette.getD (3 * i + 2) 0, a := 255 }

/-! ## Reading an artifact back -/

/-- The value of an upper-case hexadecimal digit. -/
def hex_value (c : Char) : Option Nat :=
  if 48 ≤ c.toNat ∧ c.toNat ≤ 57 then some (c.toNat - 48)
  else if 65 ≤ c.toNat ∧ c.toNat ≤ 70 then some (c.toNat - 55)
  else none

/-- Decodes a text made of pairs of hexadecimal digits, pair by pair; `none`
when a character is not a digit or a digit is left over. -/
def decode_pairs : List Char → Option (List Nat)
  | [] => some []
  | [_] => none
  | a :: b :: rest => do
    let hi ← hex_value a
    let lo ← hex_value b
    let tail ← decode_pairs rest
    some ((16 * hi + lo) :: tail)

/-- The literals `$HH` of a text, decoded, in order of appearance. -/
def dollar_literals : List Char → List Nat
  | [] => []
  | c :: rest =>
    (if c = '$' then
      match rest with
      | a :: b :: _ =>
        match hex_value a, hex_value b with
        | some hi, some lo => [16 * hi + lo]
        | _, _ => []
      | _ => []
    else []) ++ dollar_literals rest

/-- The lines of a text: the pieces between line feeds. -/
def lines_of : List Char → List (List Char)
  | [] => [[]]
  | c :: rest =>
    if c = '\n' then [] :: lines_of rest
    else
      match lines_of rest with
      | l :: ls => (c :: l) :: ls
      | [] => [[c]]

/-- The lines of an AssemblyText artifact after the first tag line
`db $01` and before the first label line `___description:`. -/
def asm_icon_lines (text : String) : List (List Char) :=
  (((lines_of text.data).dropWhile (· ≠ "\tdb\t$01".data)).drop 1).takeWhile
    (· ≠ "___description:".data)

/-- The literals `$HH` of the icon block of an AssemblyText artifact, in
order. -/
def asm_icon_literals (text : String) : List Nat :=
  ((asm_icon_lines text).map dollar_literals).flatten

/-! ## Sample inputs -/

/-- Collaborators that all succeed and report an image of `w` by `h` pixels
whose index buffer is `indices`. -/
def sample_env (w h : Nat) (indices : List UInt8) : collaborators :=
  { image_load := fun path =>
      (0, { path := path, width := w, height := h, size := w * h,
            data := List.replicate (4 * (w * h)) 255 }),
    liq_attr_create := true,
    liq_image_create_rgba := true,
    malloc := true,
    liq_quantize_image := true,
    remapped := indices,
    fopen := fun _ => true,
    strerror := "" }

/-- A descriptor with an image attached. -/
def sample_icon (format : icon_format_t) (description : Option String) : icon :=
  { image_file := some "icon.png", output_file := "icon.out", description := description,
    format := format }

/-- A descriptor with no image attached. -/
def sample_icon_no_image (format : icon_format_t) (description : Option String) : icon :=
  { image_file := none, output_file := "icon.out", description := description,
    format := format }

/-- Collaborators as in `sample_env`, except that `liq_attr_create` returns
`NULL`. -/
def sample_env_no_attr (w h : Nat) (indices : List UInt8) : collaborators :=
  { sample_env w h indices with liq_attr_create := false }

/-- Collaborators as in `sample_env`, except that `fopen` returns `NULL`. -/
def sample_env_no_file (w h : Nat) (indices : List UInt8) : collaborators :=
  { sample_env w h indices with fopen := fun _ => false, strerror := "Permission denied" }

/-- Backends whose optimize phases return `NULL`, and whose zx0 compress
phase still returns a one-byte stream when handed that `NULL`. -/
def sample_backends_no_plan : zx_backends :=
  { zx7_optimize := fun _ _ => none,
    zx7_compress := fun _ _ _ => none,
    zx0_optimize := fun _ _ => (none, 0),
    zx0_compress := fun _ _ _ => some ([0x80], 1) }

/-- Backends whose phases all succeed: zx7 returns the stream `0x80, 0x01`, zx0
returns the stream `0x80` after three calls of the progress callback. -/
def sample_backends_ok : zx_backends :=
  { zx7_optimize := fun _ _ => some { handle := 0 },
    zx7_compress := fun _ _ _ => some ([0x80, 0x01], 2),
    zx0_optimize := fun _ _ => (some { handle := 0 }, 3),
    zx0_compress := fun _ _ _ => some ([0x80], 1) }

/-! ## The serializers with a record of their buffer reads -/

/-- The AssemblyText branch with an image attached, as in `write_asm`, with a
record of the buffer reads: the state of the two loops is the text written so
far together with the indices `x + offset` at which `data` has been read, in
the order of the reads. -/
def write_asm_traced (image : image) (data : List UInt8) (description : Option String)
    (fd : String) : Option (String × List Int) := do
  let fd := fd ++ "\tsection .icon\n\n"
  let fd := fd ++ "\tjp\t___prgm_init\n"
  let fd := fd ++ "\tdb\t$01\n"
  let fd := fd ++ "\tpublic ___icon\n"
  let fd := fd ++ "___icon:\n"
  let fd := fd ++ ("\tdb\t$" ++ fmt_02X_int image.width ++ ", $" ++ fmt_02X_int image.height)
  let s ← for_int image.height (fun y s =>
    let offset := y * image.width
    let s := (s.1 ++ "\n\tdb\t", s.2)
    for_int image.width (fun x s => do
      let b ← read_u8 data (x + offset)
      if x + 1 = image.width then
        some (s.1 ++ ("$" ++ fmt_02X b.toNat), s.2 ++ [x + offset])
      else
        some (s.1 ++ ("$" ++ fmt_02X b.toNat ++ ", "), s.2 ++ [x + offset])) s) (fd, [])
  let fd := s.1 ++ "\n"
  let fd :=
    if description ≠ none ∧ description ≠ some "" then
      let fd := fd ++ "\tpublic ___description\n"
      let fd := fd ++ "___description:\n"
      fd ++ ("\tdb\t\"" ++ description.getD "" ++ "\", 0\n")
    else
      let fd := fd ++ "\tpublic ___description\n"
      let fd := fd ++ "___description:\n"
      fd ++ "\tdb\t0\n"
  some (fd ++ "___prgm_init:\n", s.2)

/-- The HexLiteralText branch with an image attached, as in `write_ice`, with
a record of the buffer reads. -/
def write_ice_traced (image : image) (data : List UInt8) (fd : String) :
    Option (String × List Int) := do
  let fd := fd ++ ("\"01" ++ fmt_02X_int image.width ++ fmt_02X_int image.height)
  let s ← for_int image.height (fun y s =>
    let offset := y * image.width
    for_int image.width (fun x s => do
      let b ← read_u8 data (x + offset)
      some (s.1 ++ fmt_02X b.toNat, s.2 ++ [x + offset])) s) (fd, [])
  some (s.1 ++ "\"\n", s.2)

/-! ## Lemmas on formatting, loops and strings -/

set_option maxRecDepth 100000 in
theorem fmt_02X_eq_hex2 : ∀ v, v < 256 → fmt_02X v = hex2 v := by
  decide

theorem fmt_02X_byte (b : UInt8) : fmt_02X b.toNat = hex2 b.toNat :=
  fmt_02X_eq_hex2 b.toNat b.val.isLt

theorem fmt_02X_int_eq_hex2 (w : Nat) (hw : w ≤ 255) : fmt_02X_int (w : Int) = hex2 w := by
  unfold fmt_02X_int
  have h : ((w : Int) % 2 ^ 32).toNat = w := by omega
  rw [h]
  exact fmt_02X_eq_hex2 w (by omega)

/-- Loop rule: when `T i` is the state before iteration `i` and every iteration
below `n` succeeds and moves `T i` to `T (i + 1)`, the loop ends in `T n`. -/
theorem for_int_eq_some {σ : Type} (n : Nat) (body : Int → σ → Option σ) (T : Nat → σ)
    (hstep : ∀ i, i < n → body (i : Int) (T i) = some (T (i + 1))) :
    for_int (n : Int) body (T 0) = some (T n) := by
  unfold for_int
  rw [Int.toNat_ofNat]
  have key : ∀ k, k ≤ n →
      (List.range k).foldlM (fun s i => body (Int.ofNat i) s) (T 0) = some (T k) := by
    intro k
    induction k with
    | zero => intro _; rfl
    | succ k ih =>
      intro hk
      rw [List.range_succ, List.foldlM_append, ih (by omega)]
      simp only [List.foldlM_cons, List.foldlM_nil, Option.some_bind, Option.bind_eq_bind,
        Int.ofNat_eq_coe]
      rw [hstep k (by omega)]
      rfl
  exact key n (Nat.le_refl n)

theorem join_snoc (l : List String) (a : String) :
    String.join (l ++ [a]) = String.join l ++ a := by
  simp [String.join, List.foldl_append]

theorem intercalate_go_snoc (acc s : String) (l : List String) (a : String) :
    String.intercalate.go acc s (l ++ [a]) = String.intercalate.go acc s l ++ s ++ a := by
  induction l generalizing acc with
  | nil => simp [String.intercalate.go]
  | cons b l ih => simp [String.intercalate.go, ih]

theorem intercalate_snoc (s : String) (l : List String) (a : String) (hl : l ≠ []) :
    s.intercalate (l ++ [a]) = s.intercalate l ++ s ++ a := by
  cases l with
  | nil => exact absurd rfl hl
  | cons b l => simp [String.intercalate, intercalate_go_snoc]

/-- Writing every element but the last with the separator after it, then the
last alone, is joining with the separator. -/
theorem join_sep_snoc (s : String) (l : List String) (a : String) :
    String.join (l.map (· ++ s)) ++ a = s.intercalate (l ++ [a]) := by
  induction l using List.reverseRecOn generalizing a with
  | nil => simp [String.join, String.intercalate, String.intercalate.go]
  | append_singleton l b ih =>
    rw [List.map_append, List.map_singleton, join_snoc, intercalate_snoc s _ a (by simp),
      ← ih b]
    simp [String.append_assoc]

theorem for_int_inv {σ : Type} (n : Nat) (body : Int → σ → Option σ) (T : Nat → σ) (s : σ)
    (h0 : T 0 = s) (hstep : ∀ i, i < n → body (i : Int) (T i) = some (T (i + 1))) :
    for_int (n : Int) body s = some (T n) := by
  subst h0
  exact for_int_eq_some n body T hstep

theorem read_u8_at (data : List UInt8) (i : Nat) (b : UInt8) (h : data.get? i = some b) :
    read_u8 data (i : Int) = some b := by
  unfold read_u8
  rw [if_pos (by omega), Int.toNat_ofNat, h]

theorem take_succ_of_get? {α : Type} (l : List α) (k : Nat) (a : α) (h : l.get? k = some a) :
    l.take (k + 1) = l.take k ++ [a] := by
  rw [List.take_succ]
  simp at h
  simp [h]

theorem row_get? (data : List UInt8) (w off x : Nat) (hx : x < w) (hlen : off + w ≤ data.length) :
    ∃ b, data.get? (x + off) = some b ∧ ((data.drop off).take w).get? x = some b := by
  have h1 : x + off < data.length := by omega
  refine ⟨data.get ⟨x + off, h1⟩, ?_, ?_⟩
  · simp [List.getElem?_eq_getElem h1]
  · simp [List.getElem?_take, hx, List.getElem?_drop, Nat.add_comm off x, List.getElem?_eq_getElem h1]

/-- The inner loop of the AssemblyText branch writes one row joined by commas. -/
theorem asm_row_loop (data : List UInt8) (w o : Nat) (off : Int) (hoff : off = (o : Int))
    (hlen : o + w ≤ data.length) (fd : String) :
    for_int (w : Int) (fun x fd => do
        let b ← read_u8 data (x + off)
        if x + 1 = (w : Int) then
          some (fd ++ ("$" ++ fmt_02X b.toNat))
        else
          some (fd ++ ("$" ++ fmt_02X b.toNat ++ ", "))) fd
      = some (fd ++ ", ".intercalate (((data.drop o).take w).map fun b => "$" ++ hex2 b.toNat)) := by
  subst hoff
  set cells := ((data.drop o).take w).map fun b => "$" ++ hex2 b.toNat with hcells
  have hclen : cells.length = w := by
    simp [hcells]; omega
  have := for_int_inv w (fun x fd => do
        let b ← read_u8 data (x + (o : Int))
        if x + 1 = (w : Int) then
          some (fd ++ ("$" ++ fmt_02X b.toNat))
        else
          some (fd ++ ("$" ++ fmt_02X b.toNat ++ ", ")))
    (fun k => if k < w then fd ++ String.join ((cells.take k).map (· ++ ", "))
      else fd ++ ", ".intercalate cells) fd ?_ ?_
  · simpa using this
  · by_cases hw : 0 < w
    · simp [hw, String.join]
    · have : cells = [] := List.length_eq_zero.mp (by omega)
      simp [hw, this, String.intercalate]
  · intro i hi
    obtain ⟨b, hb1, hb2⟩ := row_get? data w o i hi hlen
    have hread : read_u8 data ((i : Int) + (o : Int)) = some b := by
      have := read_u8_at data (i + o) b hb1
      simpa using this
    have hcell : cells.get? i = some ("$" ++ hex2 b.toNat) := by
      rw [hcells, List.get?_eq_getElem?, List.getElem?_map, ← List.get?_eq_getElem?, hb2]
      rfl
    have htake := take_succ_of_get? cells i _ hcell
    simp only [hi, if_true, hread, Option.bind_eq_bind, Option.some_bind, fmt_02X_byte]
    by_cases hlast : i + 1 = w
    · have h1 : ((i : Int) + 1 = (w : Int)) := by omega
      have h2 : ¬ (i + 1 < w) := by omega
      have h3 : cells = cells.take i ++ ["$" ++ hex2 b.toNat] := by
        rw [← htake, hlast, ← hclen, List.take_length]
      rw [if_pos h1, if_neg h2]
      conv => rhs; rw [h3]
      rw [← join_sep_snoc, String.append_assoc]
    · have h1 : ¬ ((i : Int) + 1 = (w : Int)) := by omega
      have h2 : i + 1 < w := by omega
      rw [if_neg h1, if_pos h2, htake, List.map_append, List.map_singleton, join_snoc]
      simp [String.append_assoc]

theorem join_append (l₁ l₂ : List String) :
    String.join (l₁ ++ l₂) = String.join l₁ ++ String.join l₂ := by
  apply String.ext
  simp [String.data_join]

/-- The outer loop of the AssemblyText branch writes one line per row. -/
theorem asm_rows_loop (data : List UInt8) (w h : Nat) (hlen : data.length = w * h)
    (fd : String) :
    for_int (h : Int) (fun y fd =>
        for_int (w : Int) (fun x fd => do
          let b ← read_u8 data (x + y * (w : Int))
          if x + 1 = (w : Int) then
            some (fd ++ ("$" ++ fmt_02X b.toNat))
          else
            some (fd ++ ("$" ++ fmt_02X b.toNat ++ ", "))) (fd ++ "\n\tdb\t")) fd
      = some (fd ++ String.join ((List.range h).map fun y =>
          "\n\tdb\t" ++ spec_asm_row (spec_row w data y))) := by
  apply for_int_inv h _ (fun k => fd ++ String.join ((List.range k).map fun y =>
          "\n\tdb\t" ++ spec_asm_row (spec_row w data y)))
  · simp [String.join]
  · intro i hi
    have hmul : (i + 1) * w ≤ h * w := Nat.mul_le_mul_right w (by omega)
    have hbound : i * w + w ≤ data.length := by
      rw [hlen, Nat.mul_comm w h]
      calc i * w + w = (i + 1) * w := by ring
        _ ≤ h * w := hmul
    rw [asm_row_loop data w (i * w) ((i : Int) * (w : Int)) (by push_cast; rfl) hbound]
    rw [List.range_succ, List.map_append, List.map_singleton, join_snoc]
    simp [String.append_assoc, spec_asm_row, spec_row]

/-- The inner loop of the HexLiteralText branch writes the digits of one row. -/
theorem ice_row_loop (data : List UInt8) (w o : Nat) (off : Int) (hoff : off = (o : Int))
    (hlen : o + w ≤ data.length) (fd : String) :
    for_int (w : Int) (fun x fd => do
        let b ← read_u8 data (x + off)
        some (fd ++ fmt_02X b.toNat)) fd
      = some (fd ++ String.join (((data.drop o).take w).map fun b => hex2 b.toNat)) := by
  subst hoff
  have := for_int_inv w (fun x fd => do
        let b ← read_u8 data (x + (o : Int))
        some (fd ++ fmt_02X b.toNat))
    (fun k => fd ++ String.join (((data.drop o).take k).map fun b => hex2 b.toNat)) fd ?_ ?_
  · exact this
  · simp [String.join]
  · intro i hi
    obtain ⟨b, hb1, hb2⟩ := row_get? data w o i hi hlen
    have hread : read_u8 data ((i : Int) + (o : Int)) = some b := by
      have := read_u8_at data (i + o) b hb1
      simpa using this
    have hb3 : (data.drop o).get? i = some b := by
      rw [List.get?_eq_getElem?, List.getElem?_take] at hb2
      simpa [hi] using hb2
    simp only [hread, Option.bind_eq_bind, Option.some_bind, fmt_02X_byte]
    rw [take_succ_of_get? _ i b hb3, List.map_append, List.map_singleton, join_snoc,
      String.append_assoc]

/-- The outer loop of the HexLiteralText branch writes the digits of every
byte of the buffer, in buffer order. -/
theorem ice_rows_loop (data : List UInt8) (w h : Nat) (hlen : data.length = w * h)
    (fd : String) :
    for_int (h : Int) (fun y fd =>
        for_int (w : Int) (fun x fd => do
          let b ← read_u8 data (x + y * (w : Int))
          some (fd ++ fmt_02X b.toNat)) fd) fd
      = some (fd ++ String.join (data.map fun b => hex2 b.toNat)) := by
  have := for_int_inv h (fun y fd =>
        for_int (w : Int) (fun x fd => do
          let b ← read_u8 data (x + y * (w : Int))
          some (fd ++ fmt_02X b.toNat)) fd)
    (fun k => fd ++ String.join ((data.take (k * w)).map fun b => hex2 b.toNat)) fd ?_ ?_
  · rw [this, List.take_of_length_le (by rw [hlen, Nat.mul_comm])]
  · simp [String.join]
  · intro i hi
    have hmul : (i + 1) * w ≤ h * w := Nat.mul_le_mul_right w (by omega)
    have hbound : i * w + w ≤ data.length := by
      rw [hlen, Nat.mul_comm w h]
      calc i * w + w = (i + 1) * w := by ring
        _ ≤ h * w := hmul
    have hsplit : data.take ((i + 1) * w) = data.take (i * w) ++ (data.drop (i * w)).take w := by
      rw [Nat.add_mul, Nat.one_mul, List.take_add]
    dsimp only
    rw [ice_row_loop data w (i * w) ((i : Int) * (w : Int)) (by push_cast; rfl) hbound]
    rw [hsplit, List.map_append, join_append, String.append_assoc]

set_option maxRecDepth 100000 in
theorem icon_palette_length : icon_palette.length = 768 := by
  decide

theorem icon_palette_get? (j : Nat) (hj : j < 768) :
    icon_palette.get? j = some (icon_palette.getD j 0) := by
  have h : j < icon_palette.length := by rw [icon_palette_length]; exact hj
  simp [List.getD_eq_getElem?_getD, List.getElem?_eq_getElem h]

theorem read_palette (i : Int) (j : Nat) (hj : j < 768) (hi : i = (j : Int)) :
    read_u8 icon_palette i = some (icon_palette.getD j 0) := by
  subst hi
  exact read_u8_at icon_palette j _ (icon_palette_get? j hj)

/-- The registration loop passes the 256 palette entries in palette order. -/
theorem add_fixed_colors_eq :
    add_fixed_colors = some ((List.range 256).map palette_color) := by
  unfold add_fixed_colors
  have h := for_int_inv 256 (fun i colors => do
    let o := i * 3
    let r ← read_u8 icon_palette (o + 0)
    let g ← read_u8 icon_palette (o + 1)
    let b ← read_u8 icon_palette (o + 2)
    some (colors ++ [({ r := r, g := g, b := b, a := 255 } : liq_color)]))
    (fun k => (List.range k).map palette_color) [] rfl ?_
  · exact h
  · intro i hi
    have h0 := read_palette ((i : Int) * 3 + 0) (3 * i) (by omega) (by omega)
    have h1 := read_palette ((i : Int) * 3 + 1) (3 * i + 1) (by omega) (by omega)
    have h2 := read_palette ((i : Int) * 3 + 2) (3 * i + 2) (by omega) (by omega)
    simp only [h0, h1, h2, Option.bind_eq_bind, Option.some_bind]
    rw [List.range_succ, List.map_append, List.map_singleton]
    rfl

/-- With an image attached, a successful load, both dimensions at most 255
and a quantization backend that succeeds, `icon_convert` reaches line 133 with
`ret = 0`, the advisory as its log and the 256 palette colours registered. -/
theorem icon_convert_with_image (ic : icon) (env : collaborators) (path : String) (img : image)
    (himage : ic.image_file = some path) (hload : env.image_load path = (0, img))
    (hw : img.width ≤ 255) (hh : img.height ≤ 255)
    (hattr : env.liq_attr_create = true) (hcreate : env.liq_image_create_rgba = true)
    (hmalloc : env.malloc = true) (hquant : env.liq_quantize_image = true) :
    icon_convert ic env =
      icon_output ic env (some (img, env.remapped)) 0 (size_advisory img)
        ((List.range 256).map palette_color) := by
  unfold icon_convert
  rw [himage]
  simp only [hload, hattr, hcreate, hmalloc, hquant, add_fixed_colors_eq]
  have h1 : ¬ img.width > 255 := by omega
  have h2 : ¬ img.height > 255 := by omega
  simp [h1, h2]

theorem description_block_eq (description : Option String) (fd : String) :
    (if description ≠ none ∧ description ≠ some "" then
      fd ++ "\tpublic ___description\n" ++ "___description:\n" ++
        ("\tdb\t\"" ++ description.getD "" ++ "\", 0\n")
    else
      fd ++ "\tpublic ___description\n" ++ "___description:\n" ++ "\tdb\t0\n")
    = fd ++ spec_description_block description := by
  unfold spec_description_block
  cases description with
  | none => simp [String.append_assoc]
  | some d =>
    by_cases hd : d = ""
    · subst hd; simp [String.append_assoc]
    · simp [hd, String.append_assoc]

/-- The AssemblyText branch with an image of `w` by `h` pixels and a buffer of
`w * h` bytes writes the text of the specification. -/
theorem write_asm_image (img : image) (data : List UInt8) (description : Option String)
    (w h : Nat) (hwidth : img.width = w) (hheight : img.height = h)
    (hw : w ≤ 255) (hh : h ≤ 255) (hlen : data.length = w * h) :
    write_asm (some (img, data)) description "" = some (spec_asm_text w h data description) := by
  unfold write_asm
  simp only [hwidth, hheight, fmt_02X_int_eq_hex2 w hw, fmt_02X_int_eq_hex2 h hh]
  rw [asm_rows_loop data w h hlen]
  simp only [Option.bind_eq_bind, Option.some_bind, description_block_eq]
  simp only [spec_asm_text, spec_asm_icon_block, String.append_assoc, String.empty_append]
  rfl

/-- A successfully loaded image wider or higher than 255 sends `icon_convert`
to `fail` with the value 0 that `image_load` stored in `ret`: the call returns
0 and never calls `fopen`. -/
theorem icon_convert_oversized (ic : icon) (env : collaborators) (path : String) (img : image)
    (himage : ic.image_file = some path) (hload : env.image_load path = (0, img))
    (hbig : img.width > 255 ∨ img.height > 255) :
    ∃ r, icon_convert ic env = some r ∧ r.ret = 0 ∧ r.file = none ∧ r.fopen_called = false := by
  unfold icon_convert
  rw [himage]
  simp only [hload]
  by_cases h1 : img.width > 255
  · simp [h1, goto_fail]
  · have h2 : img.height > 255 := by omega
    simp [h1, h2, goto_fail]

/-- Claim C1, where the code departs from it: for an image that loads
successfully with width 256 and height 16, and for one with width 16 and
height 256, `icon_convert` logs the error that names the dimension, opens no
output file, and returns 0, the value of success. -/
theorem icon_convert_width_256_returns_success :
    icon_convert (sample_icon icon_format_t.ICON_FORMAT_ASM none) (sample_env 256 16 []) =
      some { ret := 0, file := none, fopen_called := false,
             log := [log_entry.LOG_ERROR
               "Icon \x27icon.png\x27 width is 256. Maximum supported is 255.\n"],
             fixed_colors := [] } ∧
    icon_convert (sample_icon icon_format_t.ICON_FORMAT_ASM none) (sample_env 16 256 []) =
      some { ret := 0, file := none, fopen_called := false,
             log := [log_entry.LOG_ERROR
               "Icon \x27icon.png\x27 height is 256. Maximum supported is 255.\n"],
             fixed_colors := [] } := by
  constructor
  · rfl
  · rfl

/-- The whole result of an AssemblyText conversion with an image attached when
the dimensions are at most 255, the buffer has `w * h` bytes and every
collaborator succeeds. -/
theorem icon_convert_asm_image (ic : icon) (env : collaborators) (path : String) (img : image)
    (w h : Nat)
    (himage : ic.image_file = some path)
    (hformat : ic.format = icon_format_t.ICON_FORMAT_ASM)
    (hload : env.image_load path = (0, img))
    (hwidth : img.width = w) (hheight : img.height = h) (hw : w ≤ 255) (hh : h ≤ 255)
    (hattr : env.liq_attr_create = true) (hcreate : env.liq_image_create_rgba = true)
    (hmalloc : env.malloc = true) (hquant : env.liq_quantize_image = true)
    (hlen : env.remapped.length = w * h)
    (hopen : env.fopen ic.output_file = true) :
    icon_convert ic env = some
      { ret := 0, file := some (spec_asm_text w h env.remapped ic.description),
        fopen_called := true, log := size_advisory img,
        fixed_colors := (List.range 256).map palette_color } := by
  rw [icon_convert_with_image ic env path img himage hload (by omega) (by omega) hattr hcreate
    hmalloc hquant]
  unfold icon_output
  rw [hopen, hformat]
  simp only [write_asm_image img env.remapped ic.description w h hwidth hheight hw hh hlen,
    Option.bind_eq_bind, Option.some_bind, Bool.true_eq_false, if_false]

/-- Claim C2: with an image of `w` by `h` pixels attached (both at most 255), an
index buffer of `w * h` bytes and every collaborator succeeding, the
AssemblyText output of `icon_convert` is exactly the section header, the tag
line and the label, the line `db $WW, $HH`, one line per row with the bytes of
the row as `$HH` joined by a comma and a blank, a line feed, the description
block and the label `___prgm_init:`. For the 2 by 1 buffer `[0x00, 0x05]` the
icon lines are `db $02, $01` and `db $00, $05`. -/
theorem icon_convert_asm_text (ic : icon) (env : collaborators) (path : String) (img : image)
    (w h : Nat)
    (himage : ic.image_file = some path)
    (hformat : ic.format = icon_format_t.ICON_FORMAT_ASM)
    (hload : env.image_load path = (0, img))
    (hwidth : img.width = w) (hheight : img.height = h) (hw : w ≤ 255) (hh : h ≤ 255)
    (hattr : env.liq_attr_create = true) (hcreate : env.liq_image_create_rgba = true)
    (hmalloc : env.malloc = true) (hquant : env.liq_quantize_image = true)
    (hlen : env.remapped.length = w * h)
    (hopen : env.fopen ic.output_file = true) :
    (∃ r, icon_convert ic env = some r ∧
      r.file = some
        ("\tsection .icon\n\n\tjp\t___prgm_init\n" ++
         "\tdb\t$01\n\tpublic ___icon\n___icon:\n" ++
         ("\tdb\t$" ++ hex2 w ++ ", $" ++ hex2 h) ++
         String.join ((List.range h).map fun y =>
           "\n\tdb\t" ++ ", ".intercalate ((spec_row w env.remapped y).map fun b =>
             "$" ++ hex2 b.toNat)) ++
         "\n" ++ spec_description_block ic.description ++ "___prgm_init:\n")) ∧
    (icon_convert (sample_icon icon_format_t.ICON_FORMAT_ASM none) (sample_env 2 1 [0x00, 0x05])).bind
        (fun r => r.file) =
      some ("\tsection .icon\n\n\tjp\t___prgm_init\n" ++
        "\tdb\t$01\n\tpublic ___icon\n___icon:\n" ++
        "\tdb\t$02, $01" ++ "\n\tdb\t$00, $05" ++ "\n" ++
        "\tpublic ___description\n___description:\n\tdb\t0\n" ++ "___prgm_init:\n") := by
  constructor
  · rw [icon_convert_asm_image ic env path img w h himage hformat hload hwidth hheight hw hh
      hattr hcreate hmalloc hquant hlen hopen]
    refine ⟨_, rfl, ?_⟩
    simp only [spec_asm_text, spec_asm_icon_block, spec_asm_row, String.append_assoc]
  · rw [icon_convert_asm_image (sample_icon icon_format_t.ICON_FORMAT_ASM none)
      (sample_env 2 1 [0x00, 0x05]) "icon.png" _ 2 1 rfl rfl rfl rfl rfl (by decide) (by decide)
      rfl rfl rfl rfl rfl rfl]
    rfl

theorem icon_convert_asm_text_witness :
    ∃ r, icon_convert (sample_icon icon_format_t.ICON_FORMAT_ASM (some "Hi"))
        (sample_env 2 2 [0, 5, 255, 171]) = some r ∧
      r.file = some
        ("\tsection .icon\n\n\tjp\t___prgm_init\n" ++
         "\tdb\t$01\n\tpublic ___icon\n___icon:\n" ++
         ("\tdb\t$" ++ hex2 2 ++ ", $" ++ hex2 2) ++
         String.join ((List.range 2).map fun y =>
           "\n\tdb\t" ++ ", ".intercalate ((spec_row 2 [0, 5, 255, 171] y).map fun b =>
             "$" ++ hex2 b.toNat)) ++
         "\n" ++ spec_description_block (some "Hi") ++ "___prgm_init:\n") :=
  (icon_convert_asm_text (sample_icon icon_format_t.ICON_FORMAT_ASM (some "Hi"))
    (sample_env 2 2 [0, 5, 255, 171]) "icon.png" _ 2 2 rfl rfl rfl rfl rfl (by decide) (by decide)
    rfl rfl rfl rfl rfl rfl).1

theorem join_cons (a : String) (l : List String) :
    String.join (a :: l) = a ++ String.join l := by
  have h := join_append [a] l
  simpa [String.join] using h

theorem hex_value_hex_digit : ∀ d, d < 16 → hex_value (hex_digit d) = some d := by
  decide

theorem hex2_data (v : Nat) : (hex2 v).data = [hex_digit (v / 16), hex_digit (v % 16)] :=
  rfl

theorem hex2_length (v : Nat) : (hex2 v).length = 2 :=
  rfl

theorem decode_pairs_hex2 (v : Nat) (hv : v < 256) (rest : List Char) :
    decode_pairs ((hex2 v).data ++ rest) = (decode_pairs rest).map (v :: ·) := by
  have h1 := hex_value_hex_digit (v / 16) (by omega)
  have h2 := hex_value_hex_digit (v % 16) (by omega)
  have h3 : 16 * (v / 16) + v % 16 = v := by omega
  rw [hex2_data]
  show decode_pairs (hex_digit (v / 16) :: hex_digit (v % 16) :: rest) = _
  simp only [decode_pairs, h1, h2, h3, Option.bind_eq_bind, Option.some_bind]
  cases decode_pairs rest <;> rfl

theorem decode_pairs_bytes (data : List UInt8) (rest : List Char) :
    decode_pairs ((String.join (data.map fun b => hex2 b.toNat)).data ++ rest) =
      (decode_pairs rest).map ((data.map UInt8.toNat) ++ ·) := by
  induction data with
  | nil => simp [String.join]
  | cons b data ih =>
    rw [List.map_cons, join_cons, String.data_append, List.append_assoc,
      decode_pairs_hex2 b.toNat b.val.isLt, ih]
    cases decode_pairs rest <;> simp

theorem join_hex2_length (data : List UInt8) :
    (String.join (data.map fun b => hex2 b.toNat)).length = 2 * data.length := by
  induction data with
  | nil => rfl
  | cons b data ih =>
    rw [List.map_cons, join_cons, String.length_append, ih, hex2_length, List.length_cons]
    omega

/-- The HexLiteralText branch with an image of `w` by `h` pixels and a buffer
of `w * h` bytes writes the text of the specification. -/
theorem write_ice_image (img : image) (data : List UInt8)
    (w h : Nat) (hwidth : img.width = w) (hheight : img.height = h)
    (hw : w ≤ 255) (hh : h ≤ 255) (hlen : data.length = w * h) :
    write_ice (some (img, data)) "" = some (spec_ice_text w h data) := by
  unfold write_ice
  simp only [hwidth, hheight, fmt_02X_int_eq_hex2 w hw, fmt_02X_int_eq_hex2 h hh]
  rw [ice_rows_loop data w h hlen]
  simp only [Option.bind_eq_bind, Option.some_bind]
  simp only [spec_ice_text, String.append_assoc, String.empty_append]
  rfl

/-- The whole result of a HexLiteralText conversion with an image attached
when the dimensions are at most 255, the buffer has `w * h` bytes and every
collaborator succeeds. -/
theorem icon_convert_ice_image (ic : icon) (env : collaborators) (path : String) (img : image)
    (w h : Nat)
    (himage : ic.image_file = some path)
    (hformat : ic.format = icon_format_t.ICON_FORMAT_ICE)
    (hload : env.image_load path = (0, img))
    (hwidth : img.width = w) (hheight : img.height = h) (hw : w ≤ 255) (hh : h ≤ 255)
    (hattr : env.liq_attr_create = true) (hcreate : env.liq_image_create_rgba = true)
    (hmalloc : env.malloc = true) (hquant : env.liq_quantize_image = true)
    (hlen : env.remapped.length = w * h)
    (hopen : env.fopen ic.output_file = true) :
    icon_convert ic env = some
      { ret := 0, file := some (spec_ice_text w h env.remapped),
        fopen_called := true, log := size_advisory img,
        fixed_colors := (List.range 256).map palette_color } := by
  rw [icon_convert_with_image ic env path img himage hload (by omega) (by omega) hattr hcreate
    hmalloc hquant]
  unfold icon_output
  rw [hopen, hformat]
  simp only [write_ice_image img env.remapped w h hwidth hheight hw hh hlen,
    Option.bind_eq_bind, Option.some_bind, Bool.true_eq_false, if_false]

/-- Claim C3: with an image of `w` by `h` pixels attached (both at most 255), an
index buffer of `w * h` bytes and every collaborator succeeding, the
HexLiteralText output of `icon_convert` is exactly a double quote, `01`, the
width and the height as two upper-case hexadecimal digits each, every byte of
the buffer in order as two upper-case hexadecimal digits with nothing between
them, a double quote and a line feed. It has `2 * (3 + w * h) + 3` characters,
and decoding the digit pairs between the quotes gives `1, w, h` followed by
the buffer. -/
theorem icon_convert_ice_text (ic : icon) (env : collaborators) (path : String) (img : image)
    (w h : Nat)
    (himage : ic.image_file = some path)
    (hformat : ic.format = icon_format_t.ICON_FORMAT_ICE)
    (hload : env.image_load path = (0, img))
    (hwidth : img.width = w) (hheight : img.height = h) (hw : w ≤ 255) (hh : h ≤ 255)
    (hattr : env.liq_attr_create = true) (hcreate : env.liq_image_create_rgba = true)
    (hmalloc : env.malloc = true) (hquant : env.liq_quantize_image = true)
    (hlen : env.remapped.length = w * h)
    (hopen : env.fopen ic.output_file = true) :
    ∃ r text payload, icon_convert ic env = some r ∧ r.file = some text ∧
      text = "\"" ++ "01" ++ hex2 w ++ hex2 h ++
        String.join (env.remapped.map fun b => hex2 b.toNat) ++ "\"" ++ "\n" ∧
      text.length = 2 * (3 + w * h) + 3 ∧
      text = "\"" ++ String.mk payload ++ "\"\n" ∧
      decode_pairs payload = some (1 :: w :: h :: env.remapped.map UInt8.toNat) := by
  rw [icon_convert_ice_image ic env path img w h himage hformat hload hwidth hheight hw hh
    hattr hcreate hmalloc hquant hlen hopen]
  refine ⟨_, _, ("01" ++ hex2 w ++ hex2 h ++
    String.join (env.remapped.map fun b => hex2 b.toNat)).data, rfl, rfl, rfl, ?_, ?_, ?_⟩
  · simp only [spec_ice_text, String.length_append, join_hex2_length, hex2_length, hlen]
    simp only [String.length]
    simp
    omega
  · simp only [spec_ice_text, String.append_assoc]
    rfl
  · have h1 : decode_pairs ("01".data ++ ((hex2 w).data ++ ((hex2 h).data ++
        ((String.join (env.remapped.map fun b => hex2 b.toNat)).data ++ [])))) =
        some (1 :: w :: h :: env.remapped.map UInt8.toNat) := by
      have e : "01".data = (hex2 1).data := rfl
      rw [e, decode_pairs_hex2 1 (by omega), decode_pairs_hex2 w (by omega),
        decode_pairs_hex2 h (by omega), decode_pairs_bytes]
      simp [decode_pairs]
    simpa [String.data_append] using h1

theorem icon_convert_ice_text_witness :
    ∃ r text payload, icon_convert (sample_icon icon_format_t.ICON_FORMAT_ICE (some "Hi"))
        (sample_env 2 2 [0, 5, 255, 171]) = some r ∧ r.file = some text ∧
      text = "\"" ++ "01" ++ hex2 2 ++ hex2 2 ++
        String.join (([0, 5, 255, 171] : List UInt8).map fun b => hex2 b.toNat) ++ "\"" ++ "\n" ∧
      text.length = 2 * (3 + 2 * 2) + 3 ∧
      text = "\"" ++ String.mk payload ++ "\"\n" ∧
      decode_pairs payload =
        some (1 :: 2 :: 2 :: ([0, 5, 255, 171] : List UInt8).map UInt8.toNat) :=
  icon_convert_ice_text (sample_icon icon_format_t.ICON_FORMAT_ICE (some "Hi"))
    (sample_env 2 2 [0, 5, 255, 171]) "icon.png" _ 2 2 rfl rfl rfl rfl rfl (by decide) (by decide)
    rfl rfl rfl rfl rfl rfl

/-! ## Lemmas on reading an AssemblyText artifact back -/

theorem lines_of_line (l rest : List Char) (hl : ∀ c ∈ l, c ≠ '\n') :
    lines_of (l ++ '\n' :: rest) = l :: lines_of rest := by
  induction l with
  | nil => simp [lines_of]
  | cons c l ih =>
    have hc : c ≠ '\n' := hl c (List.mem_cons_self c l)
    have ih2 := ih (fun d hd => hl d (List.mem_cons_of_mem c hd))
    simp [lines_of, hc, ih2]

/-- A line followed by further lines that each start with a line feed, then a
closing line feed, splits into exactly these lines. -/
theorem lines_of_rows (cur : List Char) (rows : List (List Char)) (rest : List Char)
    (hcur : ∀ c ∈ cur, c ≠ '\n') (hrows : ∀ r ∈ rows, ∀ c ∈ r, c ≠ '\n') :
    lines_of (cur ++ ((rows.map ('\n' :: ·)).flatten ++ '\n' :: rest)) =
      (cur :: rows) ++ lines_of rest := by
  induction rows generalizing cur with
  | nil => simpa using lines_of_line cur rest hcur
  | cons r rows ih =>
    have h1 := ih r (hrows r (List.mem_cons_self r rows))
      (fun r2 hr2 => hrows r2 (List.mem_cons_of_mem r hr2))
    have h2 : cur ++ (((r :: rows).map ('\n' :: ·)).flatten ++ '\n' :: rest) =
        cur ++ '\n' :: (r ++ ((rows.map ('\n' :: ·)).flatten ++ '\n' :: rest)) := by
      simp
    rw [h2, lines_of_line cur _ hcur, h1]
    simp

theorem hex_digit_ne : ∀ d, d < 16 → hex_digit d ≠ '\n' ∧ hex_digit d ≠ '$' := by
  decide

theorem hex2_no_newline (v : Nat) (hv : v < 256) : ∀ c ∈ (hex2 v).data, c ≠ '\n' := by
  intro c hc
  rw [hex2_data] at hc
  simp only [List.mem_cons, List.mem_singleton, List.not_mem_nil, or_false] at hc
  rcases hc with h | h
  · rw [h]; exact (hex_digit_ne (v / 16) (by omega)).1
  · rw [h]; exact (hex_digit_ne (v % 16) (by omega)).1

theorem intercalate_go_eq (acc s : String) (l : List String) :
    String.intercalate.go acc s l = acc ++ String.join (l.map (s ++ ·)) := by
  induction l generalizing acc with
  | nil => simp [String.intercalate.go, String.join]
  | cons b l ih =>
    rw [String.intercalate.go, ih, List.map_cons, join_cons]
    simp [String.append_assoc]

theorem intercalate_cons (s a : String) (l : List String) :
    s.intercalate (a :: l) = a ++ String.join (l.map (s ++ ·)) := by
  rw [String.intercalate, intercalate_go_eq]

/-- The characters of one `$HH` cell. -/
theorem cell_data (b : UInt8) :
    ("$" ++ hex2 b.toNat).data = [ '$', hex_digit (b.toNat / 16), hex_digit (b.toNat % 16)] :=
  rfl

theorem dollar_literals_cell (p q : Nat) (hp : p < 16) (hq : q < 16) (rest : List Char) :
    dollar_literals ('$' :: hex_digit p :: hex_digit q :: rest) =
      (16 * p + q) :: dollar_literals rest := by
  have h1 := (hex_digit_ne p hp).2
  have h2 := (hex_digit_ne q hq).2
  simp [dollar_literals, hex_value_hex_digit p hp, hex_value_hex_digit q hq, h1, h2]

theorem dollar_literals_byte (b : UInt8) (rest : List Char) :
    dollar_literals (("$" ++ hex2 b.toNat).data ++ rest) = b.toNat :: dollar_literals rest := by
  have hb : b.toNat < 256 := b.val.isLt
  rw [cell_data]
  show dollar_literals ('$' :: hex_digit (b.toNat / 16) :: hex_digit (b.toNat % 16) :: rest) = _
  rw [dollar_literals_cell _ _ (by omega) (by omega)]
  congr 1
  omega

theorem dollar_literals_tail (row : List UInt8) (rest : List Char) :
    dollar_literals ((String.join ((row.map fun b => "$" ++ hex2 b.toNat).map
      (", " ++ ·))).data ++ rest) = row.map UInt8.toNat ++ dollar_literals rest := by
  induction row with
  | nil => simp [String.join]
  | cons b row ih =>
    rw [List.map_cons, List.map_cons, join_cons, String.data_append, String.data_append,
      List.append_assoc, List.append_assoc]
    show dollar_literals (',' :: ' ' :: (("$" ++ hex2 b.toNat).data ++ _)) = _
    have h : dollar_literals (',' :: ' ' :: (("$" ++ hex2 b.toNat).data ++
        ((String.join ((row.map fun b => "$" ++ hex2 b.toNat).map (", " ++ ·))).data ++ rest))) =
        dollar_literals (("$" ++ hex2 b.toNat).data ++
        ((String.join ((row.map fun b => "$" ++ hex2 b.toNat).map (", " ++ ·))).data ++ rest)) := by
      simp [dollar_literals]
    rw [h, dollar_literals_byte, ih]
    simp

/-- The literals of a row of the icon block are the bytes of the row. -/
theorem dollar_literals_row (row : List UInt8) :
    dollar_literals ("\tdb\t" ++ spec_asm_row row).data = row.map UInt8.toNat := by
  have h0 : ∀ rest, dollar_literals ("\tdb\t".data ++ rest) = dollar_literals rest := by
    intro rest
    show dollar_literals ('\t' :: 'd' :: 'b' :: '\t' :: rest) = _
    simp [dollar_literals]
  rw [String.data_append, h0]
  unfold spec_asm_row
  cases row with
  | nil => rfl
  | cons b row =>
    rw [List.map_cons, intercalate_cons, String.data_append]
    have h := dollar_literals_tail row []
    rw [List.append_nil] at h
    rw [dollar_literals_byte, h]
    simp [dollar_literals]

theorem join_no_newline (l : List String) (hl : ∀ s ∈ l, ∀ c ∈ s.data, c ≠ '\n') :
    ∀ c ∈ (String.join l).data, c ≠ '\n' := by
  intro c hc
  rw [String.data_join] at hc
  simp only [List.mem_flatten, List.mem_map] at hc
  obtain ⟨d, ⟨s, hs, rfl⟩, hcd⟩ := hc
  exact hl s hs c hcd

theorem row_no_newline (row : List UInt8) :
    ∀ c ∈ ("\tdb\t" ++ spec_asm_row row).data, c ≠ '\n' := by
  intro c hc
  rw [String.data_append, List.mem_append] at hc
  rcases hc with hc | hc
  · revert c; decide
  · unfold spec_asm_row at hc
    cases row with
    | nil => simp [String.intercalate] at hc
    | cons b row =>
      have hcell : ∀ b : UInt8, ∀ c ∈ ("$" ++ hex2 b.toNat).data, c ≠ '\n' := by
        intro b c hc
        rw [String.data_append, List.mem_append] at hc
        rcases hc with hc | hc
        · revert c; decide
        · exact hex2_no_newline b.toNat b.val.isLt c hc
      rw [List.map_cons, intercalate_cons, String.data_append, List.mem_append] at hc
      rcases hc with hc | hc
      · exact hcell b c hc
      · refine join_no_newline _ ?_ c hc
        intro s hs
        simp only [List.mem_map] at hs
        obtain ⟨t, ⟨b2, _, rfl⟩, rfl⟩ := hs
        intro c hc
        rw [String.data_append, List.mem_append] at hc
        rcases hc with hc | hc
        · revert c; decide
        · exact hcell b2 c hc

/-- The rows of a buffer of `w * h` bytes, one after the other, are the buffer. -/
theorem rows_flatten (w h : Nat) (data : List UInt8) (hlen : data.length = w * h) :
    ((List.range h).map (spec_row w data)).flatten = data := by
  have key : ∀ k, ((List.range k).map (spec_row w data)).flatten = data.take (k * w) := by
    intro k
    induction k with
    | zero => simp
    | succ k ih =>
      rw [List.range_succ, List.map_append, List.flatten_append, ih, Nat.add_mul, Nat.one_mul,
        List.take_add]
      simp [spec_row]
  rw [key h, List.take_of_length_le (by rw [hlen, Nat.mul_comm])]

/-- The characters of the AssemblyText artifact, line by line. -/
theorem asm_text_data (w h : Nat) (data : List UInt8) (description : Option String) :
    ∃ rest, (spec_asm_text w h data description).data =
      "\tsection .icon".data ++ '\n' :: ([] ++ '\n' :: ("\tjp\t___prgm_init".data ++ '\n' ::
      ("\tdb\t$01".data ++ '\n' :: ("\tpublic ___icon".data ++ '\n' :: ("___icon:".data ++ '\n' ::
      (("\tdb\t$" ++ hex2 w ++ ", $" ++ hex2 h).data ++
        ((((List.range h).map fun y => ("\tdb\t" ++ spec_asm_row (spec_row w data y)).data).map
          ('\n' :: ·)).flatten ++ '\n' ::
      ("\tpublic ___description".data ++ '\n' :: ("___description:".data ++ '\n' ::
        rest))))))))) := by
  refine ⟨((match description with
    | some d => if d = "" then "\tdb\t0\n" else "\tdb\t\"" ++ d ++ "\", 0\n"
    | none => "\tdb\t0\n") ++ "___prgm_init:\n").data, ?_⟩
  have hH : "\tsection .icon\n\n\tjp\t___prgm_init\n".data =
      "\tsection .icon".data ++ '\n' :: ([] ++ '\n' :: ("\tjp\t___prgm_init".data ++ ['\n'])) := rfl
  have hT : "\tdb\t$01\n\tpublic ___icon\n___icon:\n".data =
      "\tdb\t$01".data ++ '\n' :: ("\tpublic ___icon".data ++ '\n' :: ("___icon:".data ++ ['\n'])) :=
    rfl
  have hD : "\tpublic ___description\n___description:\n".data =
      "\tpublic ___description".data ++ '\n' :: ("___description:".data ++ ['\n']) := rfl
  have hN : "\n".data = ['\n'] := rfl
  have hR : ∀ r : String, ("\n\tdb\t" ++ r).data = '\n' :: ("\tdb\t" ++ r).data := fun _ => rfl
  simp only [spec_asm_text, spec_asm_icon_block, spec_description_block, String.data_append,
    String.data_join, List.map_map, hH, hT, hD, hN]
  simp only [Function.comp_def, hR]
  simp only [List.append_assoc, List.cons_append, List.nil_append, List.map_map,
    Function.comp_def]
  rfl

/-- The lines of the icon block of the AssemblyText artifact. -/
theorem asm_icon_lines_eq (w h : Nat) (data : List UInt8) (description : Option String)
    (hw : w ≤ 255) (hh : h ≤ 255) :
    asm_icon_lines (spec_asm_text w h data description) =
      "\tpublic ___icon".data :: "___icon:".data ::
        ("\tdb\t$" ++ hex2 w ++ ", $" ++ hex2 h).data ::
        (((List.range h).map fun y => ("\tdb\t" ++ spec_asm_row (spec_row w data y)).data) ++
          ["\tpublic ___description".data]) := by
  obtain ⟨rest, hrest⟩ := asm_text_data w h data description
  have hdims : ∀ c ∈ ("\tdb\t$" ++ hex2 w ++ ", $" ++ hex2 h).data, c ≠ '\n' := by
    intro c hc
    simp only [String.data_append, List.mem_append] at hc
    rcases hc with ((hc | hc) | hc) | hc
    · revert c; decide
    · exact hex2_no_newline w (by omega) c hc
    · revert c; decide
    · exact hex2_no_newline h (by omega) c hc
  have hrows : ∀ r ∈ (List.range h).map
      (fun y => ("\tdb\t" ++ spec_asm_row (spec_row w data y)).data), ∀ c ∈ r, c ≠ '\n' := by
    intro r hr
    simp only [List.mem_map] at hr
    obtain ⟨y, _, rfl⟩ := hr
    exact row_no_newline _
  have hne : ∀ r ∈ (List.range h).map
      (fun y => ("\tdb\t" ++ spec_asm_row (spec_row w data y)).data),
      r ≠ "___description:".data := by
    intro r hr
    simp only [List.mem_map] at hr
    obtain ⟨y, _, rfl⟩ := hr
    rw [String.data_append]
    show '\t' :: _ ≠ '_' :: _
    simp
  have hdne : ("\tdb\t$" ++ hex2 w ++ ", $" ++ hex2 h).data ≠ "___description:".data := by
    simp only [String.data_append, List.append_assoc]
    show '\t' :: _ ≠ '_' :: _
    simp
  unfold asm_icon_lines
  rw [hrest]
  rw [lines_of_line _ _ (by decide), lines_of_line _ _ (by decide),
    lines_of_line _ _ (by decide), lines_of_line _ _ (by decide),
    lines_of_line _ _ (by decide), lines_of_line _ _ (by decide),
    lines_of_rows _ _ _ hdims hrows,
    lines_of_line _ _ (by decide), lines_of_line _ _ (by decide)]
  have d1 : "\tsection .icon".data ≠ "\tdb\t$01".data := by decide
  have d2 : ([] : List Char) ≠ "\tdb\t$01".data := by decide
  have d3 : "\tjp\t___prgm_init".data ≠ "\tdb\t$01".data := by decide
  have t1 : "\tpublic ___icon".data ≠ "___description:".data := by decide
  have t2 : "___icon:".data ≠ "___description:".data := by decide
  have t3 : "\tpublic ___description".data ≠ "___description:".data := by decide
  simp only [List.dropWhile_cons, d1, d2, d3, ne_eq, not_true_eq_false, not_false_eq_true,
    decide_True, decide_False, if_true, if_false, List.drop_succ_cons, List.drop_zero,
    Bool.false_eq_true]
  simp only [List.takeWhile_cons, t1, t2, hdne, not_false_eq_true, decide_True, if_true,
    List.cons_append]
  congr 3
  rw [List.takeWhile_append_of_pos]
  · simp [List.takeWhile_cons, t3]
  · intro r hr
    simpa using hne r hr

theorem uint8_ofNat_toNat (b : UInt8) : UInt8.ofNat b.toNat = b := by
  cases b with
  | mk v =>
    apply UInt8.ext
    simp [UInt8.ofNat, UInt8.toNat, Fin.ofNat, Nat.mod_eq_of_lt v.isLt]

theorem dollar_literals_dims (w h : Nat) (hw : w ≤ 255) (hh : h ≤ 255) :
    dollar_literals ("\tdb\t$" ++ hex2 w ++ ", $" ++ hex2 h).data = [w, h] := by
  have e1 : 16 * (w / 16) + w % 16 = w := by omega
  have e2 : 16 * (h / 16) + h % 16 = h := by omega
  show dollar_literals ('\t' :: 'd' :: 'b' :: '\t' :: '$' :: hex_digit (w / 16) ::
    hex_digit (w % 16) :: ',' :: ' ' :: '$' :: hex_digit (h / 16) :: hex_digit (h % 16) :: []) = _
  have h0 : ∀ rest, dollar_literals ('\t' :: 'd' :: 'b' :: '\t' :: rest) = dollar_literals rest := by
    intro rest
    simp [dollar_literals]
  have h1 : ∀ rest, dollar_literals (',' :: ' ' :: rest) = dollar_literals rest := by
    intro rest
    simp [dollar_literals]
  rw [h0, dollar_literals_cell _ _ (by omega) (by omega), h1,
    dollar_literals_cell _ _ (by omega) (by omega), e1, e2]
  rfl

/-- Reading the `$HH` literals of the icon block of the specified text gives
the width, the height and the buffer. -/
theorem asm_icon_literals_eq (w h : Nat) (data : List UInt8) (description : Option String)
    (hw : w ≤ 255) (hh : h ≤ 255) (hlen : data.length = w * h) :
    asm_icon_literals (spec_asm_text w h data description) = w :: h :: data.map UInt8.toNat := by
  unfold asm_icon_literals
  rw [asm_icon_lines_eq w h data description hw hh]
  have p1 : dollar_literals "\tpublic ___icon".data = [] := by decide
  have p2 : dollar_literals "___icon:".data = [] := by decide
  have p3 : dollar_literals "\tpublic ___description".data = [] := by decide
  simp only [List.map_cons, List.map_append, List.map_nil, List.map_map, List.flatten_cons,
    List.flatten_append, List.flatten_nil, p1, p2, p3, dollar_literals_dims w h hw hh,
    List.nil_append, List.append_nil, Function.comp_def, dollar_literals_row]
  have hrows : ((List.range h).map fun y => (spec_row w data y).map UInt8.toNat).flatten =
      data.map UInt8.toNat := by
    have := congrArg (List.map UInt8.toNat) (rows_flatten w h data hlen)
    rw [List.map_flatten, List.map_map] at this
    exact this
  rw [hrows]
  rfl

/-- Claim C4: round trip of AssemblyText. With an image of `w` by `h` pixels
attached (both at most 255), an index buffer of `w * h` bytes, any description
and every collaborator succeeding, the `$HH` literals that stand in the written
file after the tag line `db $01` and before the label `___description:`,
decoded in order, are `w`, `h` and then the bytes of the buffer in row-major
order; the buffer is recovered exactly. -/
theorem icon_convert_asm_round_trip (ic : icon) (env : collaborators) (path : String)
    (img : image) (w h : Nat)
    (himage : ic.image_file = some path)
    (hformat : ic.format = icon_format_t.ICON_FORMAT_ASM)
    (hload : env.image_load path = (0, img))
    (hwidth : img.width = w) (hheight : img.height = h) (hw : w ≤ 255) (hh : h ≤ 255)
    (hattr : env.liq_attr_create = true) (hcreate : env.liq_image_create_rgba = true)
    (hmalloc : env.malloc = true) (hquant : env.liq_quantize_image = true)
    (hlen : env.remapped.length = w * h)
    (hopen : env.fopen ic.output_file = true) :
    ∃ r text, icon_convert ic env = some r ∧ r.file = some text ∧
      asm_icon_literals text = w :: h :: env.remapped.map UInt8.toNat ∧
      ((asm_icon_literals text).drop 2).map UInt8.ofNat = env.remapped := by
  rw [icon_convert_asm_image ic env path img w h himage hformat hload hwidth hheight hw hh
    hattr hcreate hmalloc hquant hlen hopen]
  refine ⟨_, _, rfl, rfl, asm_icon_literals_eq w h env.remapped ic.description hw hh hlen, ?_⟩
  rw [asm_icon_literals_eq w h env.remapped ic.description hw hh hlen]
  simp [List.map_map, Function.comp_def, uint8_ofNat_toNat]

theorem icon_convert_asm_round_trip_witness :
    ∃ r text, icon_convert (sample_icon icon_format_t.ICON_FORMAT_ASM (some "$41"))
        (sample_env 2 2 [0, 5, 255, 171]) = some r ∧ r.file = some text ∧
      asm_icon_literals text = 2 :: 2 :: ([0, 5, 255, 171] : List UInt8).map UInt8.toNat ∧
      ((asm_icon_literals text).drop 2).map UInt8.ofNat = ([0, 5, 255, 171] : List UInt8) :=
  icon_convert_asm_round_trip (sample_icon icon_format_t.ICON_FORMAT_ASM (some "$41"))
    (sample_env 2 2 [0, 5, 255, 171]) "icon.png" _ 2 2 rfl rfl rfl rfl rfl (by decide) (by decide)
    rfl rfl rfl rfl rfl rfl

/-! ## Conversions with no image attached -/

/-- The whole result of a conversion with no image attached when the output
file opens: HexLiteralText writes nothing, every other format writes the
AssemblyText artifact with the tag `$02`. -/
theorem icon_convert_without_image (ic : icon) (env : collaborators)
    (himage : ic.image_file = none) (hopen : env.fopen ic.output_file = true) :
    icon_convert ic env = some
      { ret := 0,
        file := some (if ic.format = icon_format_t.ICON_FORMAT_ICE then ""
          else spec_asm_text_no_image ic.description),
        fopen_called := true, log := [], fixed_colors := [] } := by
  unfold icon_convert
  rw [himage]
  unfold icon_output
  rw [hopen]
  have hasm : write_asm none ic.description "" = some (spec_asm_text_no_image ic.description) := by
    unfold write_asm
    simp only [Option.bind_eq_bind, Option.some_bind, description_block_eq]
    simp only [spec_asm_text_no_image, String.append_assoc, String.empty_append]
    rfl
  cases hf : ic.format <;> simp [hasm, write_ice]

/-- The text that the AssemblyText branch writes before the description
block when no image is attached holds the tag line `db $02`, no `$01`, no
`___icon`, and no `$HH` literal other than the tag. -/
theorem no_image_icon_section_facts :
    "\tdb\t$02\n".data <:+: "\tsection .icon\n\n\tjp\t___prgm_init\n\tdb\t$02\n\n".data ∧
    ¬ "$01".data <:+: "\tsection .icon\n\n\tjp\t___prgm_init\n\tdb\t$02\n\n".data ∧
    ¬ "___icon".data <:+: "\tsection .icon\n\n\tjp\t___prgm_init\n\tdb\t$02\n\n".data ∧
    dollar_literals "\tsection .icon\n\n\tjp\t___prgm_init\n\tdb\t$02\n\n".data = [2] := by
  refine ⟨by decide, by decide, by decide, by decide⟩

theorem append_right_cancel (a b c : String) (h : a ++ c = b ++ c) : a = b := by
  apply String.ext
  have h2 := congrArg String.data h
  rw [String.data_append, String.data_append] at h2
  exact List.append_cancel_right h2

/-- Claim C5, as the code has it: with no image attached and an output file
that opens, HexLiteralText leaves the output text empty whatever the
description is, while AssemblyText writes exactly the section header, the tag
line `db $02`, an empty line, the description block and the closing label. In
that output the text that stands before the description block holds the tag
line `db $02`, no `$01`, no `___icon`, and no `$HH` literal other than the tag,
so no width, height or pixel byte. The description block itself carries the
description as it was given. -/
theorem icon_convert_no_image_icon_section (ic : icon) (env : collaborators)
    (himage : ic.image_file = none) (hopen : env.fopen ic.output_file = true) :
    (ic.format = icon_format_t.ICON_FORMAT_ICE →
      ∃ r, icon_convert ic env = some r ∧ r.file = some "") ∧
    (ic.format = icon_format_t.ICON_FORMAT_ASM →
      ∃ r text, icon_convert ic env = some r ∧ r.file = some text ∧
        text = "\tsection .icon\n\n\tjp\t___prgm_init\n\tdb\t$02\n\n" ++
          spec_description_block ic.description ++ "___prgm_init:\n" ∧
        ∀ before, text = before ++ spec_description_block ic.description ++ "___prgm_init:\n" →
          "\tdb\t$02\n".data <:+: before.data ∧ ¬ "$01".data <:+: before.data ∧
          ¬ "___icon".data <:+: before.data ∧ dollar_literals before.data = [2]) := by
  constructor
  · intro hf
    rw [icon_convert_without_image ic env himage hopen]
    exact ⟨_, rfl, by simp [hf]⟩
  · intro hf
    rw [icon_convert_without_image ic env himage hopen]
    have htext : spec_asm_text_no_image ic.description =
        "\tsection .icon\n\n\tjp\t___prgm_init\n\tdb\t$02\n\n" ++
          spec_description_block ic.description ++ "___prgm_init:\n" := by
      simp only [spec_asm_text_no_image, String.append_assoc]
      rfl
    refine ⟨_, _, rfl, by simp only [hf]; rfl, htext, ?_⟩
    intro before hbefore
    rw [htext] at hbefore
    have h1 := append_right_cancel _ _ _ hbefore
    have h2 := append_right_cancel _ _ _ h1
    rw [← h2]
    exact no_image_icon_section_facts

theorem icon_convert_no_image_icon_section_witness :
    (∃ r, icon_convert (sample_icon_no_image icon_format_t.ICON_FORMAT_ICE (some "Hi"))
        (sample_env 0 0 []) = some r ∧ r.file = some "") ∧
    (∃ r text, icon_convert (sample_icon_no_image icon_format_t.ICON_FORMAT_ASM (some "$01"))
        (sample_env 0 0 []) = some r ∧ r.file = some text ∧
        text = "\tsection .icon\n\n\tjp\t___prgm_init\n\tdb\t$02\n\n" ++
          spec_description_block (some "$01") ++ "___prgm_init:\n" ∧
        ∀ before, text = before ++ spec_description_block (some "$01") ++ "___prgm_init:\n" →
          "\tdb\t$02\n".data <:+: before.data ∧ ¬ "$01".data <:+: before.data ∧
          ¬ "___icon".data <:+: before.data ∧ dollar_literals before.data = [2]) :=
  ⟨(icon_convert_no_image_icon_section
      (sample_icon_no_image icon_format_t.ICON_FORMAT_ICE (some "Hi"))
      (sample_env 0 0 []) rfl rfl).1 rfl,
   (icon_convert_no_image_icon_section
      (sample_icon_no_image icon_format_t.ICON_FORMAT_ASM (some "$01"))
      (sample_env 0 0 []) rfl rfl).2 rfl⟩

set_option maxRecDepth 100000 in
/-- What the no-image AssemblyText artifact with the description `$01___icon`
holds. -/
theorem no_image_text_with_tag_in_description :
    "$01".data <:+: ("\tsection .icon\n\n\tjp\t___prgm_init\n\tdb\t$02\n\n" ++
      "\tpublic ___description\n___description:\n\tdb\t\"$01___icon\", 0\n___prgm_init:\n").data ∧
    "___icon".data <:+: ("\tsection .icon\n\n\tjp\t___prgm_init\n\tdb\t$02\n\n" ++
      "\tpublic ___description\n___description:\n\tdb\t\"$01___icon\", 0\n___prgm_init:\n").data ∧
    dollar_literals ("\tsection .icon\n\n\tjp\t___prgm_init\n\tdb\t$02\n\n" ++
      "\tpublic ___description\n___description:\n\tdb\t\"$01___icon\", 0\n___prgm_init:\n").data =
      [2, 1] := by
  refine ⟨by decide, by decide, by decide⟩

set_option maxRecDepth 100000 in
/-- The lines `db $01` and `___icon:` of the no-image AssemblyText artifact
whose description closes the string literal and goes on over further lines. -/
theorem no_image_text_with_lines_in_description :
    "\tdb\t$01".data ∈ lines_of ("\tsection .icon\n\n\tjp\t___prgm_init\n\tdb\t$02\n\n" ++
      "\tpublic ___description\n___description:\n" ++
      "\tdb\t\"x\", 0\n\tdb\t$01\n___icon:\n\tdb\t\"y\", 0\n___prgm_init:\n").data ∧
    "___icon:".data ∈ lines_of ("\tsection .icon\n\n\tjp\t___prgm_init\n\tdb\t$02\n\n" ++
      "\tpublic ___description\n___description:\n" ++
      "\tdb\t\"x\", 0\n\tdb\t$01\n___icon:\n\tdb\t\"y\", 0\n___prgm_init:\n").data := by
  refine ⟨by decide, by decide⟩

/-- Claim C5 fails as stated: the description is copied into the AssemblyText
output as it was given. With no image attached and the description
`$01___icon`, the output holds `$01` and `___icon`, and its `$HH` literals are
the tag 2 and then 1. With a description that closes the string literal and
goes on over further lines, the output has a line `db $01` and a line
`___icon:`. -/
theorem icon_convert_no_image_counterexample :
    (∃ text, (icon_convert (sample_icon_no_image icon_format_t.ICON_FORMAT_ASM
          (some "$01___icon")) (sample_env 0 0 [])).bind (fun r => r.file) = some text ∧
      "$01".data <:+: text.data ∧ "___icon".data <:+: text.data ∧
      dollar_literals text.data = [2, 1]) ∧
    (∃ text, (icon_convert (sample_icon_no_image icon_format_t.ICON_FORMAT_ASM
          (some "x\", 0\n\tdb\t$01\n___icon:\n\tdb\t\"y")) (sample_env 0 0 [])).bind
          (fun r => r.file) = some text ∧
      "\tdb\t$01".data ∈ lines_of text.data ∧ "___icon:".data ∈ lines_of text.data) := by
  constructor
  · exact ⟨_, rfl, no_image_text_with_tag_in_description⟩
  · exact ⟨_, rfl, no_image_text_with_lines_in_description⟩

/-! ## The description block -/

/-- A loop whose iterations only append to the text only appends to it. -/
theorem for_int_appends (n : Int) (body : Int → String → Option String)
    (hbody : ∀ i fd fd2, body i fd = some fd2 → ∃ s, fd2 = fd ++ s)
    (fd0 fd : String) (hrun : for_int n body fd0 = some fd) : ∃ s, fd = fd0 ++ s := by
  unfold for_int at hrun
  generalize List.range n.toNat = l at hrun
  induction l generalizing fd0 with
  | nil =>
    simp only [List.foldlM_nil, pure, Option.some.injEq] at hrun
    exact ⟨"", by rw [← hrun]; simp⟩
  | cons a l ih =>
    rw [List.foldlM_cons] at hrun
    cases hstep : body (Int.ofNat a) fd0 with
    | none => rw [hstep] at hrun; simp at hrun
    | some fd1 =>
      rw [hstep] at hrun
      obtain ⟨s1, hs1⟩ := hbody _ _ _ hstep
      obtain ⟨s2, hs2⟩ := ih fd1 hrun
      exact ⟨s1 ++ s2, by rw [hs2, hs1, String.append_assoc]⟩

/-- Whatever the dimensions and the buffer, a run of the AssemblyText branch
with an image that ends has written the header, the tag `$01` with the label,
further text, a line feed, the description block and the closing label. -/
theorem write_asm_image_shape (img : image) (data : List UInt8) (description : Option String)
    (text : String) (hrun : write_asm (some (img, data)) description "" = some text) :
    ∃ rows, text = "\tsection .icon\n\n\tjp\t___prgm_init\n" ++
      ("\tdb\t$01\n\tpublic ___icon\n___icon:\n" ++ rows) ++ "\n" ++
      spec_description_block description ++ "___prgm_init:\n" := by
  unfold write_asm at hrun
  simp only [Option.bind_eq_bind, description_block_eq] at hrun
  rw [Option.bind_eq_some] at hrun
  obtain ⟨fd, hloop, hfd⟩ := hrun
  obtain ⟨s, hs⟩ := for_int_appends _ _ (by
    intro y fd1 fd2 h
    obtain ⟨s, hs⟩ := for_int_appends _ _ (by
      intro x fd3 fd4 h2
      cases hread : read_u8 data (x + y * img.width) with
      | none => simp [hread] at h2
      | some b =>
        simp only [hread, Option.bind_eq_bind, Option.some_bind] at h2
        split at h2
        · exact ⟨_, (Option.some.inj h2).symm⟩
        · exact ⟨_, (Option.some.inj h2).symm⟩) _ _ h
    exact ⟨"\n\tdb\t" ++ s, by rw [hs, String.append_assoc]⟩) _ _ hloop
  refine ⟨"\tdb\t$" ++ fmt_02X_int img.width ++ ", $" ++ fmt_02X_int img.height ++ s, ?_⟩
  rw [← Option.some.inj hfd, hs]
  simp only [String.append_assoc, String.empty_append]
  rfl

/-- A call of `icon_output` that leaves a file has written it through the
branch that the format selects. -/
theorem icon_output_file (ic : icon) (env : collaborators)
    (icon_data : Option (image × List UInt8)) (ret : Int) (log : List log_entry)
    (colors : List liq_color) (r : conversion) (text : String)
    (hrun : icon_output ic env icon_data ret log colors = some r) (hfile : r.file = some text) :
    (match ic.format with
      | icon_format_t.ICON_FORMAT_ICE => write_ice icon_data ""
      | _ => write_asm icon_data ic.description "") = some text := by
  unfold icon_output at hrun
  split at hrun
  · rw [← Option.some.inj hrun] at hfile
    simp [goto_fail] at hfile
  · simp only [Option.bind_eq_bind] at hrun
    have key : ∀ written : Option String,
        (written.bind fun y => some (conversion.mk 0 (some y) true log colors)) = some r →
          written = some text := by
      intro written hw
      rw [Option.bind_eq_some] at hw
      obtain ⟨fd, hfd, hr⟩ := hw
      rw [← Option.some.inj hr] at hfile
      rw [hfd]
      exact hfile
    cases hf : ic.format <;> simp only [hf] at hrun ⊢ <;> exact key _ hrun

/-- A call of `icon_convert` that leaves a file has written it through the
branch that the format selects, with the loaded image and its index buffer
when an image is attached and with neither when none is. -/
theorem icon_convert_file (ic : icon) (env : collaborators) (r : conversion) (text : String)
    (hrun : icon_convert ic env = some r) (hfile : r.file = some text) :
    ∃ icon_data : Option (image × List UInt8),
      (icon_data = none ↔ ic.image_file = none) ∧
      (match ic.format with
        | icon_format_t.ICON_FORMAT_ICE => write_ice icon_data ""
        | _ => write_asm icon_data ic.description "") = some text := by
  unfold icon_convert at hrun
  cases himg : ic.image_file with
  | none =>
    simp only [himg] at hrun
    exact ⟨none, by simp, icon_output_file ic env none _ _ _ r text hrun hfile⟩
  | some path =>
    simp only [himg, add_fixed_colors_eq, Option.bind_eq_bind, Option.some_bind] at hrun
    split_ifs at hrun
    all_goals first
      | (rw [← Option.some.inj hrun] at hfile
         simp [goto_fail] at hfile)
      | exact ⟨some ((env.image_load path).2, env.remapped), by simp,
          icon_output_file ic env _ _ _ _ r text hrun hfile⟩

theorem write_asm_empty_description (icon_data : Option (image × List UInt8)) (fd : String) :
    write_asm icon_data (some "") fd = write_asm icon_data none fd := by
  unfold write_asm
  simp

theorem icon_convert_empty_description (ic : icon) (env : collaborators) :
    icon_convert { ic with description := some "" } env =
      icon_convert { ic with description := none } env := by
  unfold icon_convert icon_output
  simp only [write_asm_empty_description]

/-- Claim C6: in every AssemblyText conversion that writes its file, with or
without an image, the text is the section header, the icon block, a line feed,
then `public ___description` and the label `___description:`, then the line
`db "<description>", 0` when the description is present and not empty and the
line `db 0` when it is absent or empty, and last the label line
`___prgm_init:`. The icon block is the tag line `db $02` without an image and
starts with the tag line `db $01` and the label with one. An absent and an
empty description give the same file. -/
theorem icon_convert_asm_description (ic : icon) (env : collaborators) (r : conversion)
    (text : String) (hformat : ic.format = icon_format_t.ICON_FORMAT_ASM)
    (hrun : icon_convert ic env = some r) (hfile : r.file = some text) :
    (∃ icon_block, text = "\tsection .icon\n\n\tjp\t___prgm_init\n" ++ icon_block ++ "\n" ++
        "\tpublic ___description\n___description:\n" ++
        (if ic.description = none ∨ ic.description = some "" then "\tdb\t0\n"
          else "\tdb\t\"" ++ ic.description.getD "" ++ "\", 0\n") ++
        "___prgm_init:\n" ∧
      (ic.image_file = none → icon_block = "\tdb\t$02\n") ∧
      (ic.image_file ≠ none →
        ∃ rows, icon_block = "\tdb\t$01\n\tpublic ___icon\n___icon:\n" ++ rows)) ∧
    (icon_convert { ic with description := some "" } env).map (fun r => r.file) =
      (icon_convert { ic with description := none } env).map (fun r => r.file) := by
  refine ⟨?_, by rw [icon_convert_empty_description]⟩
  obtain ⟨icon_data, hdata, hwrite⟩ := icon_convert_file ic env r text hrun hfile
  rw [hformat] at hwrite
  simp only at hwrite
  have hdesc : spec_description_block ic.description =
      "\tpublic ___description\n___description:\n" ++
        (if ic.description = none ∨ ic.description = some "" then "\tdb\t0\n"
          else "\tdb\t\"" ++ ic.description.getD "" ++ "\", 0\n") := by
    unfold spec_description_block
    cases ic.description with
    | none => simp
    | some d => by_cases hd : d = "" <;> simp [hd]
  cases icon_data with
  | none =>
    have hnone : ic.image_file = none := hdata.mp rfl
    have hasm : write_asm none ic.description "" =
        some (spec_asm_text_no_image ic.description) := by
      unfold write_asm
      simp only [Option.bind_eq_bind, Option.some_bind, description_block_eq]
      simp only [spec_asm_text_no_image, String.append_assoc, String.empty_append]
      rfl
    rw [hasm] at hwrite
    refine ⟨"\tdb\t$02\n", ?_, fun _ => rfl, fun h => absurd hnone h⟩
    rw [← Option.some.inj hwrite, spec_asm_text_no_image, hdesc]
    simp only [String.append_assoc]
  | some d =>
    obtain ⟨img, data⟩ := d
    obtain ⟨rows, hrows⟩ := write_asm_image_shape img data ic.description text hwrite
    refine ⟨"\tdb\t$01\n\tpublic ___icon\n___icon:\n" ++ rows, ?_, ?_, fun _ => ⟨rows, rfl⟩⟩
    · rw [hrows, hdesc]
      simp only [String.append_assoc]
    · intro h
      have := hdata.mpr h
      simp at this

theorem icon_convert_asm_description_witness :
    ∃ r text icon_block,
      icon_convert (sample_icon icon_format_t.ICON_FORMAT_ASM (some "Hi"))
        (sample_env 2 2 [0, 5, 255, 171]) = some r ∧ r.file = some text ∧
      text = "\tsection .icon\n\n\tjp\t___prgm_init\n" ++ icon_block ++ "\n" ++
        "\tpublic ___description\n___description:\n" ++ "\tdb\t\"Hi\", 0\n" ++
        "___prgm_init:\n" :=
  have hrun := icon_convert_asm_image (sample_icon icon_format_t.ICON_FORMAT_ASM (some "Hi"))
    (sample_env 2 2 [0, 5, 255, 171]) "icon.png" _ 2 2 rfl rfl rfl rfl rfl (by decide)
    (by decide) rfl rfl rfl rfl rfl rfl
  (icon_convert_asm_description (sample_icon icon_format_t.ICON_FORMAT_ASM (some "Hi"))
    (sample_env 2 2 [0, 5, 255, 171]) _ _ rfl hrun rfl).1.elim
    fun icon_block hb => ⟨_, _, icon_block, hrun, rfl, hb.1⟩

/-! ## `compress_array` -/

/-- Claim C7: for every buffer (a null pointer, the empty buffer or any
bytes) and every size, `compress_array` with `COMPRESS_NONE` returns 0 and
leaves the buffer and the size as they were, without calling a backend. -/
theorem compress_array_none (lib : zx_backends) (data : Option (List UInt8))
    (size : Option Nat) :
    compress_array lib data size compress_t.COMPRESS_NONE =
      some { ret := 0, data := data, size := size, log := [] } := by
  rfl

/-- Claim C8: for every strategy value other than `COMPRESS_NONE`,
`COMPRESS_ZX7` and `COMPRESS_ZX0`, that is `COMPRESS_INVALID` or a number that
is no enumerator, `compress_array` returns -1 and leaves the buffer and the
size as they were. -/
theorem compress_array_invalid (lib : zx_backends) (data : Option (List UInt8))
    (size : Option Nat) (mode : compress_t)
    (hnone : mode ≠ compress_t.COMPRESS_NONE) (hzx7 : mode ≠ compress_t.COMPRESS_ZX7)
    (hzx0 : mode ≠ compress_t.COMPRESS_ZX0) :
    compress_array lib data size mode =
      some { ret := -1, data := data, size := size, log := [] } := by
  cases mode with
  | COMPRESS_INVALID => rfl
  | COMPRESS_NONE => exact absurd rfl hnone
  | COMPRESS_ZX7 => exact absurd rfl hzx7
  | COMPRESS_ZX0 => exact absurd rfl hzx0
  | unrecognised v => rfl

theorem compress_array_invalid_witness :
    compress_array sample_backends_no_plan (some [1, 2, 3]) (some 3) compress_t.COMPRESS_INVALID =
        some { ret := -1, data := some [1, 2, 3], size := some 3, log := [] } ∧
      compress_array sample_backends_no_plan (some [1, 2, 3]) (some 3)
          (compress_t.unrecognised 7) =
        some { ret := -1, data := some [1, 2, 3], size := some 3, log := [] } :=
  ⟨compress_array_invalid sample_backends_no_plan (some [1, 2, 3]) (some 3)
      compress_t.COMPRESS_INVALID (by decide) (by decide) (by decide),
   compress_array_invalid sample_backends_no_plan (some [1, 2, 3]) (some 3)
      (compress_t.unrecognised 7) (by decide) (by decide) (by decide)⟩

/-- With zx7, a missing result of the optimize phase or of the compress
phase makes `compress_array` return -1 with buffer and size as they were. -/
theorem compress_zx7_no_result (lib : zx_backends) (buf : List UInt8) (sz : Nat)
    (hfail : lib.zx7_optimize buf sz = none ∨
      ∃ opt, lib.zx7_optimize buf sz = some opt ∧ lib.zx7_compress opt buf sz = none) :
    ∃ r, compress_array lib (some buf) (some sz) compress_t.COMPRESS_ZX7 = some r ∧
      r.ret = -1 ∧ r.data = some buf ∧ r.size = some sz := by
  show ∃ r, compress_zx7 lib (some buf) (some sz) = some r ∧ _
  unfold compress_zx7
  rcases hfail with h | ⟨opt, h1, h2⟩
  · simp [h]
  · simp [h1, h2]

/-- With zx0, a missing result of the compress phase makes `compress_array`
return -1 with buffer and size as they were. -/
theorem compress_zx0_no_result (lib : zx_backends) (buf : List UInt8) (sz : Nat)
    (hfail : lib.zx0_compress (lib.zx0_optimize buf (int_of_size_t sz)).1 buf (int_of_size_t sz)
      = none) :
    ∃ r, compress_array lib (some buf) (some sz) compress_t.COMPRESS_ZX0 = some r ∧
      r.ret = -1 ∧ r.data = some buf ∧ r.size = some sz := by
  show ∃ r, compress_zx0 lib (some buf) (some sz) = some r ∧ _
  unfold compress_zx0
  simp [hfail]

/-- Claim C9, where the code departs from it: `compress_zx0` hands the result
of `zx0_optimize` to `zx0_compress` without testing it. With a backend whose
optimize phase returns no result and whose compress phase returns the one-byte
stream `0x80` all the same, `compress_array` with `COMPRESS_ZX0` on the buffer
`1, 2, 3` returns 0, overwrites the first byte and sets the size to 1. -/
theorem compress_array_zx0_ignores_optimize :
    (sample_backends_no_plan.zx0_optimize [1, 2, 3] (int_of_size_t 3)).1 = none ∧
    compress_array sample_backends_no_plan (some [1, 2, 3]) (some 3) compress_t.COMPRESS_ZX0 =
      some { ret := 0, data := some [0x80, 2, 3], size := some 1,
             log := [log_entry.LOG_PRINT "[info] Compressing [", log_entry.LOG_PRINT "]\n"] } := by
  constructor
  · rfl
  · rfl

/-! ## Failures of `icon_convert` after a successful load -/

/-- Once `image_load` has returned 0, a quantization backend that fails sends
`icon_convert` to `fail` with `ret` still 0: the call returns 0 and never calls
`fopen`. -/
theorem icon_convert_backend_failure (ic : icon) (env : collaborators) (path : String)
    (img : image) (himage : ic.image_file = some path) (hload : env.image_load path = (0, img))
    (hfail : env.liq_attr_create = false ∨ env.liq_image_create_rgba = false ∨
      env.malloc = false ∨ env.liq_quantize_image = false) :
    ∃ r, icon_convert ic env = some r ∧ r.ret = 0 ∧ r.file = none ∧ r.fopen_called = false := by
  unfold icon_convert
  rw [himage]
  simp only [hload, add_fixed_colors_eq, Option.bind_eq_bind, Option.some_bind]
  split_ifs <;> first
    | exact ⟨_, rfl, rfl, rfl, rfl⟩
    | (exfalso
       rcases hfail with h | h | h | h <;> simp_all)

/-- Once `image_load` has returned 0 and the backend has succeeded, an output
file that cannot be opened sends `icon_convert` to `fail` with `ret` still 0. -/
theorem icon_convert_fopen_failure_with_image (ic : icon) (env : collaborators) (path : String)
    (img : image) (himage : ic.image_file = some path) (hload : env.image_load path = (0, img))
    (hw : img.width ≤ 255) (hh : img.height ≤ 255)
    (hattr : env.liq_attr_create = true) (hcreate : env.liq_image_create_rgba = true)
    (hmalloc : env.malloc = true) (hquant : env.liq_quantize_image = true)
    (hopen : env.fopen ic.output_file = false) :
    ∃ r, icon_convert ic env = some r ∧ r.ret = 0 ∧ r.file = none ∧ r.fopen_called = true := by
  rw [icon_convert_with_image ic env path img himage hload hw hh hattr hcreate hmalloc hquant]
  unfold icon_output
  rw [if_pos hopen]
  exact ⟨_, rfl, rfl, rfl, rfl⟩

/-- With no image attached, an output file that cannot be opened makes
`icon_convert` return -1. -/
theorem icon_convert_fopen_failure_without_image (ic : icon) (env : collaborators)
    (himage : ic.image_file = none) (hopen : env.fopen ic.output_file = false) :
    ∃ r, icon_convert ic env = some r ∧ r.ret = -1 ∧ r.file = none := by
  unfold icon_convert
  rw [himage]
  unfold icon_output
  simp only [if_pos hopen]
  exact ⟨_, rfl, rfl, rfl⟩

/-- Claim C10, where the code departs from it: with a 16 by 16 image that
loads successfully, `icon_convert` returns 0, the value of success, although
no file was written, both when `liq_attr_create` returns no result and when
the output file cannot be opened. -/
theorem icon_convert_failure_returns_success :
    icon_convert (sample_icon icon_format_t.ICON_FORMAT_ASM none) (sample_env_no_attr 16 16 []) =
      some { ret := 0, file := none, fopen_called := false,
             log := [log_entry.LOG_ERROR "Failed creating icon image attributes.\n"],
             fixed_colors := [] } ∧
    ∃ r, icon_convert (sample_icon icon_format_t.ICON_FORMAT_ASM none)
        (sample_env_no_file 16 16 (List.replicate 256 0)) = some r ∧
      r.ret = 0 ∧ r.file = none ∧ r.fopen_called = true := by
  constructor
  · rfl
  · exact icon_convert_fopen_failure_with_image _ _ "icon.png" _ rfl rfl (by decide) (by decide)
      rfl rfl rfl rfl rfl

/-! ## Format selectors outside the enumeration -/

theorem icon_output_unrecognised (ic : icon) (env : collaborators) (v : Int)
    (icon_data : Option (image × List UInt8)) (ret : Int) (log : List log_entry)
    (colors : List liq_color) :
    icon_output { ic with format := icon_format_t.unrecognised v } env icon_data ret log colors =
      icon_output { ic with format := icon_format_t.ICON_FORMAT_ASM } env icon_data ret log
        colors := by
  rfl

theorem icon_convert_unrecognised (ic : icon) (env : collaborators) (v : Int) :
    icon_convert { ic with format := icon_format_t.unrecognised v } env =
      icon_convert { ic with format := icon_format_t.ICON_FORMAT_ASM } env := by
  unfold icon_convert
  simp only [icon_output_unrecognised]

/-- Claim C11, as the code has it: a format selector that is neither
`ICON_FORMAT_ASM` nor `ICON_FORMAT_ICE` takes the `default` label, which falls
through to the AssemblyText branch, so `icon_convert` gives the same return
value, the same file and the same log as with `ICON_FORMAT_ASM`. -/
theorem icon_convert_default_format (ic : icon) (env : collaborators) (v : Int) :
    icon_convert { ic with format := icon_format_t.unrecognised v } env =
      icon_convert { ic with format := icon_format_t.ICON_FORMAT_ASM } env := by
  unfold icon_convert
  simp only [icon_output_unrecognised]

/-- Claim C11 fails as stated: with the selector 9, which is no enumerator, no
image attached and an output file that opens, `icon_convert` returns 0 and
writes the AssemblyText artifact. -/
theorem icon_convert_default_format_counterexample :
    icon_convert (sample_icon_no_image (icon_format_t.unrecognised 9) none) (sample_env 0 0 []) =
      some { ret := 0,
             file := some ("\tsection .icon\n\n\tjp\t___prgm_init\n\tdb\t$02\n\n" ++
               "\tpublic ___description\n___description:\n\tdb\t0\n___prgm_init:\n"),
             fopen_called := true, log := [], fixed_colors := [] } := by
  rfl

/-! ## Aborted conversions -/

/-- Claim C12: when a conversion with an image attached is aborted by a load
failure, a width or a height above 255, a failure of `liq_attr_create`,
`liq_image_create_rgba` or `liq_quantize_image`, or a failed allocation of the
index buffer, `icon_convert` ends without having called `fopen` and without an
output file. -/
theorem icon_convert_abort_no_output (ic : icon) (env : collaborators) (path : String)
    (himage : ic.image_file = some path)
    (habort : (env.image_load path).1 ≠ 0 ∨ (env.image_load path).2.width > 255 ∨
      (env.image_load path).2.height > 255 ∨ env.liq_attr_create = false ∨
      env.liq_image_create_rgba = false ∨ env.malloc = false ∨
      env.liq_quantize_image = false) :
    ∃ r, icon_convert ic env = some r ∧ r.fopen_called = false ∧ r.file = none := by
  unfold icon_convert
  rw [himage]
  rcases hl : env.image_load path with ⟨ret, img⟩
  rw [hl] at habort
  simp only [add_fixed_colors_eq, Option.bind_eq_bind, Option.some_bind]
  split_ifs <;> first
    | exact ⟨_, rfl, rfl, rfl⟩
    | (exfalso
       rcases habort with h | h | h | h | h | h | h <;> simp_all)

theorem icon_convert_abort_no_output_witness :
    (∃ r, icon_convert (sample_icon icon_format_t.ICON_FORMAT_ASM none)
        (sample_env 256 16 []) = some r ∧ r.fopen_called = false ∧ r.file = none) ∧
    (∃ r, icon_convert (sample_icon icon_format_t.ICON_FORMAT_ICE none)
        (sample_env_no_attr 16 16 []) = some r ∧ r.fopen_called = false ∧ r.file = none) :=
  ⟨icon_convert_abort_no_output (sample_icon icon_format_t.ICON_FORMAT_ASM none)
      (sample_env 256 16 []) "icon.png" rfl (Or.inr (Or.inl (by decide))),
   icon_convert_abort_no_output (sample_icon icon_format_t.ICON_FORMAT_ICE none)
      (sample_env_no_attr 16 16 []) "icon.png" rfl (Or.inr (Or.inr (Or.inr (Or.inl rfl))))⟩

/-! ## HexLiteralText with no image attached -/

/-- Claim C13, as the code has it: with no image attached, the format
HexLiteralText and an output file that opens, `icon_convert` returns 0 and
leaves the file empty: neither an icon section nor the description is
written. -/
theorem icon_convert_ice_no_image_empty (ic : icon) (env : collaborators)
    (himage : ic.image_file = none) (hformat : ic.format = icon_format_t.ICON_FORMAT_ICE)
    (hopen : env.fopen ic.output_file = true) :
    icon_convert ic env =
      some { ret := 0, file := some "", fopen_called := true, log := [], fixed_colors := [] } := by
  rw [icon_convert_without_image ic env himage hopen, hformat]
  rfl

theorem icon_convert_ice_no_image_empty_witness :
    icon_convert (sample_icon_no_image icon_format_t.ICON_FORMAT_ICE (some "Hi"))
        (sample_env 0 0 []) =
      some { ret := 0, file := some "", fopen_called := true, log := [], fixed_colors := [] } :=
  icon_convert_ice_no_image_empty (sample_icon_no_image icon_format_t.ICON_FORMAT_ICE (some "Hi"))
    (sample_env 0 0 []) rfl rfl rfl

/-- Claim C13 fails as stated: with no image attached, the format
HexLiteralText and the description `Hi`, the written file is empty, so the
description is not in it. -/
theorem icon_convert_ice_no_image_counterexample :
    (icon_convert (sample_icon_no_image icon_format_t.ICON_FORMAT_ICE (some "Hi"))
        (sample_env 0 0 [])).bind (fun r => r.file) = some "" ∧
    ¬ "Hi".data <:+: "".data := by
  constructor
  · rfl
  · decide

/-! ## Successful conversions with an image attached -/

/-- The whole result of a conversion with an image attached, in any format,
when the dimensions are at most 255, the buffer has `w * h` bytes and every
collaborator succeeds. -/
theorem icon_convert_image (ic : icon) (env : collaborators) (path : String) (img : image)
    (w h : Nat)
    (himage : ic.image_file = some path)
    (hload : env.image_load path = (0, img))
    (hwidth : img.width = w) (hheight : img.height = h) (hw : w ≤ 255) (hh : h ≤ 255)
    (hattr : env.liq_attr_create = true) (hcreate : env.liq_image_create_rgba = true)
    (hmalloc : env.malloc = true) (hquant : env.liq_quantize_image = true)
    (hlen : env.remapped.length = w * h)
    (hopen : env.fopen ic.output_file = true) :
    icon_convert ic env = some
      { ret := 0,
        file := some (if ic.format = icon_format_t.ICON_FORMAT_ICE then
            spec_ice_text w h env.remapped
          else spec_asm_text w h env.remapped ic.description),
        fopen_called := true, log := size_advisory img,
        fixed_colors := (List.range 256).map palette_color } := by
  rw [icon_convert_with_image ic env path img himage hload (by omega) (by omega) hattr hcreate
    hmalloc hquant]
  unfold icon_output
  rw [hopen]
  cases hf : ic.format <;>
    simp [write_asm_image img env.remapped ic.description w h hwidth hheight hw hh hlen,
      write_ice_image img env.remapped w h hwidth hheight hw hh hlen]

/-- A call of `icon_output` passes on the colours registered before it. -/
theorem icon_output_colors (ic : icon) (env : collaborators)
    (icon_data : Option (image × List UInt8)) (ret : Int) (log : List log_entry)
    (colors : List liq_color) (r : conversion)
    (hrun : icon_output ic env icon_data ret log colors = some r) :
    r.fixed_colors = colors := by
  unfold icon_output at hrun
  split at hrun
  · rw [← Option.some.inj hrun]
    rfl
  · simp only [Option.bind_eq_bind] at hrun
    have key : ∀ written : Option String,
        (written.bind fun y => some (conversion.mk 0 (some y) true log colors)) = some r →
          r.fixed_colors = colors := by
      intro written hw
      rw [Option.bind_eq_some] at hw
      obtain ⟨fd, _, hr⟩ := hw
      rw [← Option.some.inj hr]
    cases hf : ic.format <;> simp only [hf] at hrun <;> exact key _ hrun

theorem palette_color_get? (i : Nat) (hi : i < 256) :
    ((List.range 256).map palette_color).get? i = some (palette_color i) ∧
      icon_palette.get? (3 * i) = some (palette_color i).r ∧
      icon_palette.get? (3 * i + 1) = some (palette_color i).g ∧
      icon_palette.get? (3 * i + 2) = some (palette_color i).b ∧
      (palette_color i).a = 255 := by
  refine ⟨?_, icon_palette_get? _ (by omega), icon_palette_get? _ (by omega),
    icon_palette_get? _ (by omega), rfl⟩
  simp [List.getElem?_range hi]

/-- Claim C14: `icon_palette` holds 768 bytes. In every conversion that gets
past `liq_image_create_rgba` (image attached and loaded, both dimensions at
most 255, attributes and image created), the registration loop runs to its end
with every palette read inside the table, and the colours it passes to
`liq_image_add_fixed_color` are exactly 256: call `i` passes
`icon_palette[3 * i]`, `icon_palette[3 * i + 1]`, `icon_palette[3 * i + 2]` and
alpha 255, for `i` from 0 to 255 in this order. The table is a constant of the
embedding: the loop reads it and has no other access to it. -/
theorem icon_convert_registers_palette (ic : icon) (env : collaborators) (path : String)
    (img : image) (r : conversion)
    (himage : ic.image_file = some path) (hload : env.image_load path = (0, img))
    (hw : img.width ≤ 255) (hh : img.height ≤ 255)
    (hattr : env.liq_attr_create = true) (hcreate : env.liq_image_create_rgba = true)
    (hrun : icon_convert ic env = some r) :
    icon_palette.length = 768 ∧
    add_fixed_colors = some r.fixed_colors ∧
    r.fixed_colors.length = 256 ∧
    ∀ i, i < 256 → ∃ c, r.fixed_colors.get? i = some c ∧
      icon_palette.get? (3 * i) = some c.r ∧ icon_palette.get? (3 * i + 1) = some c.g ∧
      icon_palette.get? (3 * i + 2) = some c.b ∧ c.a = 255 := by
  have hcolors : r.fixed_colors = (List.range 256).map palette_color := by
    unfold icon_convert at hrun
    rw [himage] at hrun
    have h1 : ¬ img.width > 255 := by omega
    have h2 : ¬ img.height > 255 := by omega
    simp only [hload, hattr, hcreate, add_fixed_colors_eq, h1, h2, Option.bind_eq_bind,
      Option.some_bind] at hrun
    split_ifs at hrun
    all_goals first
      | contradiction
      | (rw [← Option.some.inj hrun]; rfl)
      | exact icon_output_colors ic env _ _ _ _ r hrun
  refine ⟨icon_palette_length, ?_, ?_, ?_⟩
  · rw [hcolors, add_fixed_colors_eq]
  · rw [hcolors]; simp
  · intro i hi
    rw [hcolors]
    exact ⟨palette_color i, palette_color_get? i hi⟩

theorem icon_convert_registers_palette_witness :
    ∃ r, icon_convert (sample_icon icon_format_t.ICON_FORMAT_ICE none)
        (sample_env 2 2 [0, 5, 255, 171]) = some r ∧
      add_fixed_colors = some r.fixed_colors ∧ r.fixed_colors.length = 256 ∧
      ∀ i, i < 256 → ∃ c, r.fixed_colors.get? i = some c ∧
        icon_palette.get? (3 * i) = some c.r ∧ icon_palette.get? (3 * i + 1) = some c.g ∧
        icon_palette.get? (3 * i + 2) = some c.b ∧ c.a = 255 :=
  have hrun := icon_convert_image (sample_icon icon_format_t.ICON_FORMAT_ICE none)
    (sample_env 2 2 [0, 5, 255, 171]) "icon.png" _ 2 2 rfl rfl rfl rfl (by decide) (by decide)
    rfl rfl rfl rfl rfl rfl
  ⟨_, hrun, (icon_convert_registers_palette (sample_icon icon_format_t.ICON_FORMAT_ICE none)
    (sample_env 2 2 [0, 5, 255, 171]) "icon.png" _ _ rfl rfl (by decide) (by decide) rfl rfl
    hrun).2⟩

/-- Claim C15: for an image of `w` by `h` pixels with both at most 255, when the
load, the quantization backend and `fopen` succeed and the index buffer has
`w * h` bytes, `icon_convert` returns 0 and writes the whole artifact of the
selected format, 16 by 16 or not. The log holds the size warning when `w` or `h`
is not 16 and is empty when both are 16; the return value and the file are the
same expressions of `w`, `h`, the buffer and the description in both cases. -/
theorem icon_convert_size_advisory (ic : icon) (env : collaborators) (path : String)
    (img : image) (w h : Nat)
    (himage : ic.image_file = some path)
    (hload : env.image_load path = (0, img))
    (hwidth : img.width = w) (hheight : img.height = h) (hw : w ≤ 255) (hh : h ≤ 255)
    (hattr : env.liq_attr_create = true) (hcreate : env.liq_image_create_rgba = true)
    (hmalloc : env.malloc = true) (hquant : env.liq_quantize_image = true)
    (hlen : env.remapped.length = w * h)
    (hopen : env.fopen ic.output_file = true) :
    ∃ r, icon_convert ic env = some r ∧ r.ret = 0 ∧
      r.file = some (if ic.format = icon_format_t.ICON_FORMAT_ICE then
          spec_ice_text w h env.remapped
        else spec_asm_text w h env.remapped ic.description) ∧
      (w ≠ 16 ∨ h ≠ 16 → r.log =
        [log_entry.LOG_WARNING ("Icon \x27" ++ img.path ++ "\x27 is not 16x16 pixels.\n")]) ∧
      (w = 16 ∧ h = 16 → r.log = []) := by
  rw [icon_convert_image ic env path img w h himage hload hwidth hheight hw hh hattr hcreate
    hmalloc hquant hlen hopen]
  refine ⟨_, rfl, rfl, rfl, ?_, ?_⟩
  · intro hne
    have : img.width ≠ 16 ∨ img.height ≠ 16 := by omega
    simp [size_advisory, this]
  · intro heq
    have : ¬ (img.width ≠ 16 ∨ img.height ≠ 16) := by omega
    simp only [size_advisory, this, if_false]

theorem icon_convert_size_advisory_witness :
    ∃ r, icon_convert (sample_icon icon_format_t.ICON_FORMAT_ASM (some "Hi"))
        (sample_env 2 2 [0, 5, 255, 171]) = some r ∧ r.ret = 0 ∧
      r.file = some (spec_asm_text 2 2 [0, 5, 255, 171] (some "Hi")) ∧
      r.log = [log_entry.LOG_WARNING "Icon \x27icon.png\x27 is not 16x16 pixels.\n"] :=
  (icon_convert_size_advisory (sample_icon icon_format_t.ICON_FORMAT_ASM (some "Hi"))
    (sample_env 2 2 [0, 5, 255, 171]) "icon.png" _ 2 2 rfl rfl rfl rfl (by decide) (by decide)
    rfl rfl rfl rfl rfl rfl).elim
    fun r hr => ⟨r, hr.1, hr.2.1, hr.2.2.1, hr.2.2.2.1 (Or.inl (by decide))⟩

/-! ## Successful compression -/

theorem memcpy_whole (buf c : List UInt8) (hle : c.length ≤ buf.length) :
    memcpy buf c c.length = some (c ++ buf.drop c.length) := by
  unfold memcpy
  rw [if_pos ⟨hle, Nat.le_refl _⟩, List.take_length]

theorem overwrite_facts (buf c : List UInt8) (hle : c.length ≤ buf.length) :
    (c ++ buf.drop c.length).take c.length = c ∧
      (c ++ buf.drop c.length).drop c.length = buf.drop c.length ∧
      (c ++ buf.drop c.length).length = buf.length := by
  refine ⟨by simp, by simp, ?_⟩
  rw [List.length_append, List.length_drop]
  omega

/-- Claim C16: with a buffer and a size that are not null, when the optimize
phase returns a plan and the compress phase returns a stream `c` of `n` bytes
with `n` at most the length of the buffer, `compress_array` returns 0, sets the
size to `n`, makes the first `n` bytes of the buffer equal to `c` and keeps the
bytes from position `n` on, for `COMPRESS_ZX7` and for `COMPRESS_ZX0` (where
`n`, an `int`, is below `2 ^ 31`). -/
theorem compress_array_zx_success (lib : zx_backends) (buf : List UInt8) (sz : Nat)
    (c : List UInt8) (n : Nat) (hn : c.length = n) (hle : n ≤ buf.length) :
    (∀ opt, lib.zx7_optimize buf sz = some opt → lib.zx7_compress opt buf sz = some (c, n) →
      ∃ r out, compress_array lib (some buf) (some sz) compress_t.COMPRESS_ZX7 = some r ∧
        r.ret = 0 ∧ r.size = some n ∧ r.data = some out ∧
        out.take n = c ∧ out.drop n = buf.drop n ∧ out.length = buf.length) ∧
    (∀ opt calls, lib.zx0_optimize buf (int_of_size_t sz) = (some opt, calls) →
      lib.zx0_compress (some opt) buf (int_of_size_t sz) = some (c, (n : Int)) → n < 2 ^ 31 →
      ∃ r out, compress_array lib (some buf) (some sz) compress_t.COMPRESS_ZX0 = some r ∧
        r.ret = 0 ∧ r.size = some n ∧ r.data = some out ∧
        out.take n = c ∧ out.drop n = buf.drop n ∧ out.length = buf.length) := by
  subst hn
  obtain ⟨f1, f2, f3⟩ := overwrite_facts buf c hle
  constructor
  · intro opt hopt hcomp
    have hrun : compress_array lib (some buf) (some sz) compress_t.COMPRESS_ZX7 =
        some (compression.mk 0 (some (c ++ buf.drop c.length)) (some c.length) []) := by
      show compress_zx7 lib (some buf) (some sz) = _
      unfold compress_zx7
      simp only [hopt, hcomp, memcpy_whole buf c hle, Option.bind_eq_bind, Option.some_bind]
    exact ⟨_, _, hrun, rfl, rfl, rfl, f1, f2, f3⟩
  · intro opt calls hopt hcomp hint
    have hsize : size_t_of_int (c.length : Int) = c.length := by
      unfold size_t_of_int
      omega
    have hrun : ∃ log, compress_array lib (some buf) (some sz) compress_t.COMPRESS_ZX0 =
        some (compression.mk 0 (some (c ++ buf.drop c.length)) (some c.length) log) := by
      show ∃ log, compress_zx0 lib (some buf) (some sz) = _
      unfold compress_zx0
      simp only [hopt, hcomp, hsize, memcpy_whole buf c hle, Option.bind_eq_bind,
        Option.some_bind]
      exact ⟨_, rfl⟩
    obtain ⟨log, hlog⟩ := hrun
    exact ⟨_, _, hlog, rfl, rfl, rfl, f1, f2, f3⟩

theorem compress_array_zx_success_witness :
    (∃ r out, compress_array sample_backends_ok (some [1, 2, 3]) (some 3)
        compress_t.COMPRESS_ZX7 = some r ∧
      r.ret = 0 ∧ r.size = some 2 ∧ r.data = some out ∧
      out.take 2 = [0x80, 0x01] ∧ out.drop 2 = ([1, 2, 3] : List UInt8).drop 2 ∧
      out.length = ([1, 2, 3] : List UInt8).length) ∧
    (∃ r out, compress_array sample_backends_ok (some [1, 2, 3]) (some 3)
        compress_t.COMPRESS_ZX0 = some r ∧
      r.ret = 0 ∧ r.size = some 1 ∧ r.data = some out ∧
      out.take 1 = [0x80] ∧ out.drop 1 = ([1, 2, 3] : List UInt8).drop 1 ∧
      out.length = ([1, 2, 3] : List UInt8).length) :=
  ⟨(compress_array_zx_success sample_backends_ok [1, 2, 3] 3 [0x80, 0x01] 2 rfl (by decide)).1
      { handle := 0 } rfl rfl,
   (compress_array_zx_success sample_backends_ok [1, 2, 3] 3 [0x80] 1 rfl (by decide)).2
      { handle := 0 } 3 rfl rfl (by decide)⟩

/-! ## The palette table -/

set_option maxRecDepth 100000 in
/-- Every palette entry is the bit-replicated expansion of the RGB565 colour
whose two bytes both equal its index. -/
theorem palette_rgb565 : ∀ i, i < 256 →
    (icon_palette.get? (3 * i)).map UInt8.toNat =
        some (((i >>> 3) <<< 3) ||| ((i >>> 3) >>> 2)) ∧
    (icon_palette.get? (3 * i + 1)).map UInt8.toNat =
        some (((((i &&& 7) <<< 3) ||| (i >>> 5)) <<< 2) |||
          ((((i &&& 7) <<< 3) ||| (i >>> 5)) >>> 4)) ∧
    (icon_palette.get? (3 * i + 2)).map UInt8.toNat =
        some (((i &&& 31) <<< 3) ||| ((i &&& 31) >>> 2)) := by
  decide!

set_option maxRecDepth 100000 in
/-- The red byte of entry `i` gives the five high bits of `i`, the blue byte
the five low bits. -/
theorem palette_index_bits : ∀ i, i < 256 →
    (icon_palette.get? (3 * i)).map (fun r => r.toNat / 8) = some (i / 8) ∧
    (icon_palette.get? (3 * i + 2)).map (fun b => b.toNat / 8) = some (i % 32) := by
  decide!

/-- Claim C18: the 256 RGB triples of `icon_palette` are pairwise distinct:
for indices `i` and `j` below 256 that differ, the triple
`icon_palette[3 * i]`, `icon_palette[3 * i + 1]`, `icon_palette[3 * i + 2]`
differs from the triple at `j`, and so do the colours registered for `i` and
`j`; a colour equal to a palette entry names one index only. -/
theorem icon_palette_distinct (i j : Nat) (hi : i < 256) (hj : j < 256) (hne : i ≠ j) :
    (icon_palette.get? (3 * i), icon_palette.get? (3 * i + 1), icon_palette.get? (3 * i + 2)) ≠
      (icon_palette.get? (3 * j), icon_palette.get? (3 * j + 1), icon_palette.get? (3 * j + 2)) ∧
    palette_color i ≠ palette_color j := by
  have key : icon_palette.get? (3 * i) = icon_palette.get? (3 * j) →
      icon_palette.get? (3 * i + 2) = icon_palette.get? (3 * j + 2) → False := by
    intro hr hb
    have hi1 := (palette_index_bits i hi).1
    have hi2 := (palette_index_bits i hi).2
    have hj1 := (palette_index_bits j hj).1
    have hj2 := (palette_index_bits j hj).2
    rw [hr, hj1] at hi1
    rw [hb, hj2] at hi2
    have e1 : j / 8 = i / 8 := Option.some.inj hi1
    have e2 : j % 32 = i % 32 := Option.some.inj hi2
    omega
  constructor
  · intro h
    simp only [Prod.mk.injEq] at h
    exact key h.1 h.2.2
  · intro h
    have hr : (palette_color i).r = (palette_color j).r := by rw [h]
    have hb : (palette_color i).b = (palette_color j).b := by rw [h]
    apply key
    · rw [icon_palette_get? _ (by omega), icon_palette_get? _ (by omega)]
      exact congrArg some hr
    · rw [icon_palette_get? _ (by omega), icon_palette_get? _ (by omega)]
      exact congrArg some hb

theorem icon_palette_distinct_witness :
    (icon_palette.get? (3 * 0), icon_palette.get? (3 * 0 + 1), icon_palette.get? (3 * 0 + 2)) ≠
      (icon_palette.get? (3 * 1), icon_palette.get? (3 * 1 + 1), icon_palette.get? (3 * 1 + 2)) ∧
    palette_color 0 ≠ palette_color 1 :=
  icon_palette_distinct 0 1 (by decide) (by decide) (by decide)

/-- Claim C19: for every index `i` from 0 to 255, with `r5 = i >> 3`,
`g6 = ((i & 7) << 3) | (i >> 5)` and `b5 = i & 31`, the table has
`icon_palette[3 * i] = (r5 << 3) | (r5 >> 2)`,
`icon_palette[3 * i + 1] = (g6 << 2) | (g6 >> 4)` and
`icon_palette[3 * i + 2] = (b5 << 3) | (b5 >> 2)`: entry `i` is the bit-replicated
expansion of the RGB565 colour whose high and low byte are both `i`. -/
theorem icon_palette_rgb565 (i : Nat) (hi : i < 256) :
    (icon_palette.get? (3 * i)).map UInt8.toNat =
        some (((i >>> 3) <<< 3) ||| ((i >>> 3) >>> 2)) ∧
    (icon_palette.get? (3 * i + 1)).map UInt8.toNat =
        some (((((i &&& 7) <<< 3) ||| (i >>> 5)) <<< 2) |||
          ((((i &&& 7) <<< 3) ||| (i >>> 5)) >>> 4)) ∧
    (icon_palette.get? (3 * i + 2)).map UInt8.toNat =
        some (((i &&& 31) <<< 3) ||| ((i &&& 31) >>> 2)) :=
  palette_rgb565 i hi

theorem icon_palette_rgb565_witness :
    (icon_palette.get? (3 * 5)).map UInt8.toNat =
        some (((5 >>> 3) <<< 3) ||| ((5 >>> 3) >>> 2)) ∧
    (icon_palette.get? (3 * 5 + 1)).map UInt8.toNat =
        some (((((5 &&& 7) <<< 3) ||| (5 >>> 5)) <<< 2) |||
          ((((5 &&& 7) <<< 3) ||| (5 >>> 5)) >>> 4)) ∧
    (icon_palette.get? (3 * 5 + 2)).map UInt8.toNat =
        some (((5 &&& 31) <<< 3) ||| ((5 &&& 31) >>> 2)) :=
  icon_palette_rgb565 5 (by decide)

/-! ## The buffer reads of the serializers -/

/-- Two loops whose bodies agree through a map of the state agree through
it. -/
theorem for_int_map {σ τ : Type} (f : σ → τ) (n : Int) (body1 : Int → σ → Option σ)
    (body2 : Int → τ → Option τ) (h : ∀ i s, (body1 i s).map f = body2 i (f s)) (s : σ) :
    (for_int n body1 s).map f = for_int n body2 (f s) := by
  unfold for_int
  generalize List.range n.toNat = l
  induction l generalizing s with
  | nil => rfl
  | cons a l ih =>
    rw [List.foldlM_cons, List.foldlM_cons]
    have ha := h (Int.ofNat a) s
    cases h1 : body1 (Int.ofNat a) s with
    | none =>
      rw [h1] at ha
      rw [← ha]
      rfl
    | some s1 =>
      rw [h1] at ha
      rw [← ha]
      exact ih s1

theorem bind_map_fst (run1 : Option (String × List Int)) (run2 : Option String)
    (k : String → String) (h : run1.map Prod.fst = run2) :
    (run1.bind fun s => some (k s.1, s.2)).map Prod.fst = run2.bind fun y => some (k y) := by
  subst h
  cases run1 <;> rfl

theorem bind_map_snd (run1 : Option (String × List Int)) (k : String → String) :
    (run1.bind fun s => some (k s.1, s.2)).map Prod.snd = run1.map Prod.snd := by
  cases run1 <;> rfl

/-- The text that `write_asm_traced` returns is the text of `write_asm`. -/
theorem write_asm_traced_text (img : image) (data : List UInt8) (description : Option String)
    (fd : String) :
    (write_asm_traced img data description fd).map Prod.fst =
      write_asm (some (img, data)) description fd := by
  unfold write_asm_traced write_asm
  simp only [Option.bind_eq_bind]
  refine bind_map_fst _ _ (fun y =>
    (if description ≠ none ∧ description ≠ some "" then
        y ++ "\n" ++ "\tpublic ___description\n" ++ "___description:\n" ++
          ("\tdb\t\"" ++ description.getD "" ++ "\", 0\n")
      else y ++ "\n" ++ "\tpublic ___description\n" ++ "___description:\n" ++ "\tdb\t0\n") ++
      "___prgm_init:\n") ?_
  refine for_int_map Prod.fst img.height _ _ ?_ _
  intro y s
  refine for_int_map Prod.fst img.width _ _ ?_ (s.1 ++ "\n\tdb\t", s.2)
  intro x s2
  cases read_u8 data (x + y * img.width) with
  | none => rfl
  | some b =>
    simp only [Option.bind_eq_bind, Option.some_bind]
    split <;> rfl

/-- The text that `write_ice_traced` returns is the text of `write_ice`. -/
theorem write_ice_traced_text (img : image) (data : List UInt8) (fd : String) :
    (write_ice_traced img data fd).map Prod.fst = write_ice (some (img, data)) fd := by
  unfold write_ice_traced write_ice
  simp only [Option.bind_eq_bind]
  refine bind_map_fst _ _ (fun y => y ++ "\"\n") ?_
  refine for_int_map Prod.fst img.height _ _ ?_ _
  intro y s
  refine for_int_map Prod.fst img.width _ _ ?_ s
  intro x s2
  cases read_u8 data (x + y * img.width) with
  | none => rfl
  | some b => rfl
/-- The indices read by the inner loop of either serializer: `offset`,
`offset + 1`, up to `offset + w - 1`. -/
theorem index_row_loop (data : List UInt8) (w o : Nat) (off : Int) (hoff : off = (o : Int))
    (hlen : o + w ≤ data.length) (reads : List Int) :
    for_int (w : Int) (fun x reads =>
        (read_u8 data (x + off)).bind fun _ => some (reads ++ [x + off])) reads
      = some (reads ++ (List.range w).map fun x => Int.ofNat (o + x)) := by
  subst hoff
  apply for_int_inv w _ (fun k => reads ++ (List.range k).map fun x => Int.ofNat (o + x))
  · simp
  · intro i hi
    have hlt : i + o < data.length := by omega
    have hread : read_u8 data ((i : Int) + (o : Int)) = some (data.get ⟨i + o, hlt⟩) := by
      have := read_u8_at data (i + o) _ (List.get?_eq_get hlt)
      simpa using this
    simp only [hread, Option.some_bind]
    rw [List.range_succ, List.map_append, List.map_singleton, List.append_assoc]
    have e : (i : Int) + (o : Int) = Int.ofNat (o + i) := by
      simp only [Int.ofNat_eq_coe]
      omega
    rw [e]

/-- The indices read by the two nested loops of either serializer on a buffer
of `w * h` bytes: 0, 1, up to `w * h - 1`. -/
theorem index_rows_loop (data : List UInt8) (w h : Nat) (hlen : data.length = w * h) :
    for_int (h : Int) (fun y reads =>
        for_int (w : Int) (fun x reads =>
          (read_u8 data (x + y * (w : Int))).bind fun _ => some (reads ++ [x + y * (w : Int)]))
          reads) []
      = some ((List.range (w * h)).map Int.ofNat) := by
  have := for_int_inv h (fun y reads =>
        for_int (w : Int) (fun x reads =>
          (read_u8 data (x + y * (w : Int))).bind fun _ => some (reads ++ [x + y * (w : Int)]))
          reads)
    (fun k => (List.range (k * w)).map Int.ofNat) [] (by simp) ?_
  · rw [this, Nat.mul_comm]
  · intro i hi
    have hmul : (i + 1) * w ≤ h * w := Nat.mul_le_mul_right w (by omega)
    have hbound : i * w + w ≤ data.length := by
      rw [hlen, Nat.mul_comm w h]
      calc i * w + w = (i + 1) * w := by ring
        _ ≤ h * w := hmul
    dsimp only
    rw [index_row_loop data w (i * w) ((i : Int) * (w : Int)) (by push_cast; rfl) hbound]
    rw [Nat.add_mul, Nat.one_mul, List.range_add, List.map_append, List.map_map]
    rfl

theorem write_asm_traced_reads (img : image) (data : List UInt8) (description : Option String)
    (fd : String) (w h : Nat) (hwidth : img.width = w) (hheight : img.height = h)
    (hlen : data.length = w * h) :
    (write_asm_traced img data description fd).map Prod.snd =
      some ((List.range (w * h)).map Int.ofNat) := by
  unfold write_asm_traced
  simp only [Option.bind_eq_bind, hwidth, hheight]
  rw [bind_map_snd _ (fun y =>
    (if description ≠ none ∧ description ≠ some "" then
        y ++ "\n" ++ "\tpublic ___description\n" ++ "___description:\n" ++
          ("\tdb\t\"" ++ description.getD "" ++ "\", 0\n")
      else y ++ "\n" ++ "\tpublic ___description\n" ++ "___description:\n" ++ "\tdb\t0\n") ++
      "___prgm_init:\n")]
  rw [← index_rows_loop data w h hlen]
  refine for_int_map Prod.snd (h : Int) _ _ ?_ _
  intro y s
  refine for_int_map Prod.snd (w : Int) _ _ ?_ (s.1 ++ "\n\tdb\t", s.2)
  intro x s2
  cases read_u8 data (x + y * (w : Int)) with
  | none => rfl
  | some b =>
    simp only [Option.bind_eq_bind, Option.some_bind]
    split <;> rfl

theorem write_ice_traced_reads (img : image) (data : List UInt8) (fd : String) (w h : Nat)
    (hwidth : img.width = w) (hheight : img.height = h) (hlen : data.length = w * h) :
    (write_ice_traced img data fd).map Prod.snd =
      some ((List.range (w * h)).map Int.ofNat) := by
  unfold write_ice_traced
  simp only [Option.bind_eq_bind, hwidth, hheight]
  rw [bind_map_snd _ (fun y => y ++ "\"\n")]
  rw [← index_rows_loop data w h hlen]
  refine for_int_map Prod.snd (h : Int) _ _ ?_ _
  intro y s
  refine for_int_map Prod.snd (w : Int) _ _ ?_ s
  intro x s2
  cases read_u8 data (x + y * (w : Int)) with
  | none => rfl
  | some b => rfl

theorem traced_result (run : Option (String × List Int)) (written : Option String)
    (reads : List Int) (h1 : run.map Prod.fst = written) (h2 : run.map Prod.snd = some reads) :
    ∃ text, run = some (text, reads) ∧ written = some text := by
  cases run with
  | none => simp at h2
  | some p =>
    obtain ⟨t, r⟩ := p
    simp only [Option.map_some', Option.some.injEq] at h2
    subst h2
    exact ⟨t, rfl, h1.symm⟩

/-- Claim C17: for every width `w`, height `h` and index buffer of `w * h`
bytes, each serializer, AssemblyText and HexLiteralText, runs to its end with
every read `data[x + y * w]` inside the buffer, and the indices it reads are,
in the order of the reads, 0, 1, up to `w * h - 1`: each is at least 0 and
below `w * h`, none is left out and none comes twice. The text of the traced
run is the text of the serializer. -/
theorem serializers_read_each_index_once (img : image) (data : List UInt8)
    (description : Option String) (w h : Nat)
    (hwidth : img.width = w) (hheight : img.height = h) (hlen : data.length = w * h) :
    (∃ text, write_asm_traced img data description "" =
        some (text, (List.range (w * h)).map Int.ofNat) ∧
      write_asm (some (img, data)) description "" = some text) ∧
    (∃ text, write_ice_traced img data "" =
        some (text, (List.range (w * h)).map Int.ofNat) ∧
      write_ice (some (img, data)) "" = some text) ∧
    (∀ i ∈ (List.range (w * h)).map Int.ofNat, 0 ≤ i ∧ i < ((w * h : Nat) : Int)) ∧
    ((List.range (w * h)).map Int.ofNat).Nodup := by
  refine ⟨?_, ?_, ?_, ?_⟩
  · exact traced_result _ _ _ (write_asm_traced_text img data description "")
      (write_asm_traced_reads img data description "" w h hwidth hheight hlen)
  · exact traced_result _ _ _ (write_ice_traced_text img data "")
      (write_ice_traced_reads img data "" w h hwidth hheight hlen)
  · intro i hi
    simp only [List.mem_map, List.mem_range] at hi
    obtain ⟨k, hk, rfl⟩ := hi
    simp only [Int.ofNat_eq_coe]
    omega
  · exact (List.nodup_range (w * h)).map (fun a b hab => Int.ofNat.inj hab)

theorem serializers_read_each_index_once_witness :
    (∃ text, write_asm_traced
        { path := "icon.png", width := 2, height := 2, size := 4, data := [] } [0, 5, 255, 171]
        (some "Hi") "" = some (text, (List.range (2 * 2)).map Int.ofNat) ∧
      write_asm (some ({ path := "icon.png", width := 2, height := 2, size := 4, data := [] },
        [0, 5, 255, 171])) (some "Hi") "" = some text) ∧
    (∃ text, write_ice_traced
        { path := "icon.png", width := 2, height := 2, size := 4, data := [] } [0, 5, 255, 171]
        "" = some (text, (List.range (2 * 2)).map Int.ofNat) ∧
      write_ice (some ({ path := "icon.png", width := 2, height := 2, size := 4, data := [] },
        [0, 5, 255, 171])) "" = some text) :=
  have h := serializers_read_each_index_once
    { path := "icon.png", width := 2, height := 2, size := 4, data := [] } [0, 5, 255, 171]
    (some "Hi") 2 2 rfl rfl rfl
  ⟨h.1, h.2.1⟩

end ConvImage
